import Mathlib

/-!
Verification development for the DOCX formatting rule engine of
`ai_studio_code.py` (classes `TableRuleEngine`, `DocxFormatChecker`,
`EnhancedDocxProcessor`).

The shallow embedding models the python-docx object graph with plain
structures: a `Document` carries the body-level `paragraphs` view, the
`tables` view and the core properties; paragraphs carry runs, alignment,
spacing attributes and two derived booleans (`hasDrawing` for the
`.//w:drawing` xpath test, `xmlHasTOC` for the `'TOC' in p._element.xml`
substring test).  Font sizes and spacing values are in points (the source
wraps them with `Pt`), line spacing is a rational number (the source uses a
float; the only values compared are `1.33` against a `0.01` tolerance, where
float and rational arithmetic agree).  Python string primitives
(`lower`, `strip`, `startswith`, `in`) are re-implemented over character
lists so that every definition is executable and kernel-reducible.
-/

namespace DocxFmt

/-- ASCII lowering of a character, the effect of Python `str.lower` on the
strings this program compares (all its keyword constants are ASCII). -/
def chLower (c : Char) : Char :=
  if 'A' ≤ c ∧ c ≤ 'Z' then Char.ofNat (c.toNat + 32) else c

/-- Python `str.lower`. -/
def strLower (s : String) : String := ⟨s.data.map chLower⟩

/-- Whitespace as stripped by Python `str.strip`. -/
def chIsWS (c : Char) : Bool := c = ' ' || c = '\t' || c = '\n' || c = '\r'

/-- Python `str.strip`: drop leading and trailing whitespace. -/
def strTrim (s : String) : String :=
  ⟨((s.data.dropWhile chIsWS).reverse.dropWhile chIsWS).reverse⟩

/-- Python `str.startswith`. -/
def strStarts (s pat : String) : Bool := pat.data.isPrefixOf s.data

/-- Helper for substring containment over character lists. -/
def containsAux (pat : List Char) : List Char → Bool
  | [] => List.isPrefixOf pat []
  | a :: t => List.isPrefixOf pat (a :: t) || containsAux pat t

/-- Python `pat in hay` substring test. -/
def strContains (hay pat : String) : Bool := containsAux pat.data hay.data

/-- Python `abs` on the rational model of floats. -/
def myAbs (q : ℚ) : ℚ := if q < 0 then -q else q

/-- The `WD_ALIGN_PARAGRAPH` enumeration values this program uses. -/
inductive Align
  | left
  | center
  | right
  | justify
  deriving DecidableEq, Repr

/-- A run: `run.font.name` and `run.font.size` are `None` when inherited. -/
structure Run where
  fontName : Option String
  fontSize : Option Nat
  text : String
  deriving DecidableEq, Repr

/-- A paragraph of the document body or of a table cell. -/
structure Paragraph where
  styleName : String
  runs : List Run
  alignment : Option Align
  spaceBefore : Option Nat
  spaceAfter : Option Nat
  lineSpacing : Option ℚ
  hasDrawing : Bool
  xmlHasTOC : Bool
  deriving DecidableEq, Repr

/-- A table cell; `python-docx` cells contain one or more paragraphs. -/
structure Cell where
  paragraphs : List Paragraph
  deriving DecidableEq, Repr

/-- A table row. -/
structure Row where
  cells : List Cell
  deriving DecidableEq, Repr

/-- A table. -/
structure Table where
  rows : List Row
  deriving DecidableEq, Repr

/-- The five `core_properties` fields this program reads and writes. -/
structure CoreProps where
  title : String
  subject : String
  keywords : String
  category : String
  comments : String
  deriving DecidableEq, Repr

/-- A loaded document: the body-level paragraph view (`doc.paragraphs`,
which excludes table-cell paragraphs), the table view (`doc.tables`) and
the core properties. -/
structure Document where
  paragraphs : List Paragraph
  tables : List Table
  props : CoreProps
  deriving DecidableEq, Repr

/-- The issue kinds appended to `self.issues` by the check methods. -/
inductive IssueKind
  | bodyAlignment
  | bodyFont
  | headingFormat
  | imageAlignment
  | lineSpacing
  | docProperties
  | tocMissing
  | tocFont
  | fixAllTables
  deriving DecidableEq, Repr

/-- An issue dict: `{'type': kind}` with an optional `'paragraph'` index. -/
structure Issue where
  kind : IssueKind
  para : Option Nat
  deriving DecidableEq, Repr

/-- Paragraph text, as python-docx derives it: concatenation of run texts. -/
def paraText (p : Paragraph) : String := String.join (p.runs.map Run.text)

/-- Cell text, as python-docx derives it: paragraph texts joined by newlines. -/
def cellText (c : Cell) : String := String.intercalate "\n" (c.paragraphs.map paraText)

/-! ## TableRuleEngine -/

/-- Header keywords of the Reference List rule. -/
def referenceListHeaders : List String :=
  ["publication number", "priority date", "filing date", "inventor(s)", "assignee(s)"]

/-- First-row keywords of the Legend Table rule. -/
def legendKeywords : List String :=
  ["supported:", "inferentially supported:", "partially supported:", "not supported:"]

/-- The dictionary returned by `TableRuleEngine.get_table_config`; the
optional `special_rules.legend_formatting` key becomes a boolean that is
`false` in configs without the key. -/
structure TableConfig where
  type : String
  headerAlign : Align
  bodyAlign : Align
  legendFormatting : Bool
  deriving DecidableEq, Repr

/-- Raw texts of the first-row cells (empty when the table has no rows). -/
def headerCellsRaw (t : Table) : List String :=
  match t.rows with
  | [] => []
  | r :: _ => r.cells.map cellText

/-- The `headers` list of `get_table_config`: lowercased, stripped texts of
the first-row cells, or `[]` when `table.rows` is empty.  The source
computes the identical expression a second time as `first_row_content`. -/
def headerCells (t : Table) : List String :=
  (headerCellsRaw t).map (fun s => strTrim (strLower s))

/-- The `header_text` string: headers joined by single spaces. -/
def headerJoin (headers : List String) : String := String.intercalate " " headers

/-- The Reference List test:
`any(h in header_text for h in reference_list_headers)`. -/
def refRuleMatch (headers : List String) : Bool :=
  referenceListHeaders.any (fun h => strContains (headerJoin headers) h)

/-- The Legend Table test: `any(keyword in content for content in
first_row_content for keyword in legend_keywords)`, where
`first_row_content` recomputes the same list as `headers`. -/
def legendRuleMatch (headers : List String) : Bool :=
  headers.any (fun content => legendKeywords.any (fun kw => strContains content kw))

/-- The Claim Chart test: `'claim element' in header_text`. -/
def claimRuleMatch (headers : List String) : Bool :=
  strContains (headerJoin headers) "claim element"

/-- The rule dispatch of `get_table_config` as a function of the computed
`headers` list, in source order: Reference List, then Legend Table, then
Claim Chart, then the Standard Table default. -/
def confOfHeaders (headers : List String) : TableConfig :=
  if refRuleMatch headers then
    ⟨"Reference List", Align.center, Align.center, false⟩
  else if legendRuleMatch headers then
    ⟨"Legend Table", Align.center, Align.justify, true⟩
  else if claimRuleMatch headers then
    ⟨"Claim Chart", Align.center, Align.justify, false⟩
  else
    ⟨"Standard Table", Align.center, Align.justify, false⟩

/-- `TableRuleEngine.get_table_config`.  The `precedingParagraphText`
argument is accepted, as in the source, and never read. -/
def get_table_config (t : Table) (precedingParagraphText : String) : TableConfig :=
  confOfHeaders (headerCells t)

/-! ## Check methods -/

/-- `font_exceptions` of `check_body_text`. -/
def checkBodyFontExceptions : List String := ["Segoe UI", "Wingdings", "Wingdings 2"]

/-- `font_exceptions` of `fix_issue` and `format_table`. -/
def fixFontExceptions : List String := ["Wingdings", "Wingdings 2"]

/-- Python `run.font.name in l`: `None` is never in a list of strings. -/
def runFontIn (r : Run) (l : List String) : Bool :=
  match r.fontName with
  | some n => l.any (fun x => decide (x = n))
  | none => false

/-- The body-font condition of `check_body_text` on one run. -/
def badBodyRun (r : Run) : Bool :=
  !(runFontIn r checkBodyFontExceptions) && !(decide (r.fontName = some "Calibri"))

/-- The guard `para.style.name == 'Normal' and para.text.strip()`. -/
def bodyParaGuard (p : Paragraph) : Bool :=
  decide (p.styleName = "Normal") && !(strTrim (paraText p)).data.isEmpty

/-- Condition under which `check_body_text` records a `body_alignment` issue. -/
def bodyAlignFlag (p : Paragraph) : Bool :=
  bodyParaGuard p && !p.hasDrawing && !(decide (p.alignment = some Align.justify))

/-- Condition under which `check_body_text` records a `body_font` issue
(the loop breaks after the first bad run, so at most one per paragraph). -/
def bodyFontFlag (p : Paragraph) : Bool :=
  bodyParaGuard p && p.runs.any badBodyRun

/-- `check_body_text`, walking `doc.paragraphs` with their indices. -/
def checkBodyAux : Nat → List Paragraph → List Issue
  | _, [] => []
  | k, p :: ps =>
    (if bodyAlignFlag p then [⟨IssueKind.bodyAlignment, some k⟩] else []) ++
    (if bodyFontFlag p then [⟨IssueKind.bodyFont, some k⟩] else []) ++
    checkBodyAux (k+1) ps

/-- The `specs` dict `{'Heading 1': 28, 'Heading 2': 20, 'Heading 3': 14}`
as a lookup. -/
def headingSize (s : String) : Option Nat :=
  if s = "Heading 1" then some 28
  else if s = "Heading 2" then some 20
  else if s = "Heading 3" then some 14
  else none

/-- Condition for the alignment `heading_format` issue of `check_headings`. -/
def headingAlignFlag (p : Paragraph) : Bool :=
  (headingSize p.styleName).isSome && !(decide (p.alignment = some Align.left))

/-- The per-run font condition of `check_headings`. -/
def badHeadingRun (sz : Nat) (r : Run) : Bool :=
  !(decide (r.fontName = some "Cambria")) || !(decide (r.fontSize = some sz))

/-- Condition for the font `heading_format` issue of `check_headings`
(the run loop breaks after the first bad run). -/
def headingFontFlag (p : Paragraph) : Bool :=
  match headingSize p.styleName with
  | some sz => p.runs.any (badHeadingRun sz)
  | none => false

/-- `check_headings`. -/
def checkHeadingsAux : Nat → List Paragraph → List Issue
  | _, [] => []
  | k, p :: ps =>
    (if headingAlignFlag p then [⟨IssueKind.headingFormat, some k⟩] else []) ++
    (if headingFontFlag p then [⟨IssueKind.headingFormat, some k⟩] else []) ++
    checkHeadingsAux (k+1) ps

/-- `check_tables`: any non-empty table list is unconditionally flagged. -/
def checkTables (d : Document) : List Issue :=
  if d.tables.isEmpty then [] else [⟨IssueKind.fixAllTables, none⟩]

/-- Condition for the `image_alignment` issue of `check_images`. -/
def imageFlag (p : Paragraph) : Bool :=
  p.hasDrawing && !(decide (p.alignment = some Align.center))

/-- `check_images`. -/
def checkImagesAux : Nat → List Paragraph → List Issue
  | _, [] => []
  | k, p :: ps =>
    (if imageFlag p then [⟨IssueKind.imageAlignment, some k⟩] else []) ++
    checkImagesAux (k+1) ps

/-- The spacing condition of `check_line_spacing`:
`space_before != Pt(6) or space_after != Pt(6) or
 (line_spacing is not None and abs(line_spacing - 1.33) > 0.01)`. -/
def badSpacing (p : Paragraph) : Bool :=
  !(decide (p.spaceBefore = some 6)) || !(decide (p.spaceAfter = some 6)) ||
  (match p.lineSpacing with
   | some x => decide (myAbs (x - 133/100) > 1/100)
   | none => false)

/-- Transition of the `in_h1_content` flag of `check_line_spacing`. -/
def scopeNext (inH1 : Bool) (p : Paragraph) : Bool :=
  if p.styleName = "Heading 1" then true
  else if p.styleName = "Heading 2" ∨ p.styleName = "Heading 3" then false
  else inH1

/-- Whether `check_line_spacing` flags this paragraph given the incoming
`in_h1_content` state (a Heading 1 is skipped by `continue`; for other
paragraphs the updated state guards the check). -/
def spacingHeadFlag (inH1 : Bool) (p : Paragraph) : Bool :=
  if p.styleName = "Heading 1" then false
  else scopeNext inH1 p && !(strTrim (paraText p)).data.isEmpty && badSpacing p

/-- `check_line_spacing`. -/
def checkSpacingAux : Bool → Nat → List Paragraph → List Issue
  | _, _, [] => []
  | b, k, p :: ps =>
    (if spacingHeadFlag b p then [⟨IssueKind.lineSpacing, some k⟩] else []) ++
    checkSpacingAux (scopeNext b p) (k+1) ps

/-- The `any(getattr(props, p) != base_name ...)` test of
`check_document_properties`; `stem` is the filename stem `base_name`. -/
def propsBad (pr : CoreProps) (stem : String) : Bool :=
  !(decide (pr.title = stem)) || !(decide (pr.subject = stem)) ||
  !(decide (pr.keywords = stem)) || !(decide (pr.category = stem)) ||
  !(decide (pr.comments = stem))

/-- `check_document_properties`. -/
def checkProps (d : Document) (stem : String) : List Issue :=
  if propsBad d.props stem then [⟨IssueKind.docProperties, none⟩] else []

/-- `any('TOC' in p._element.xml for p in doc.paragraphs)`. -/
def tocPresent (d : Document) : Bool := d.paragraphs.any Paragraph.xmlHasTOC

/-- `check_toc`. -/
def checkToc (d : Document) : List Issue :=
  if tocPresent d then [] else [⟨IssueKind.tocMissing, none⟩]

/-- The per-run font condition of `check_toc_font`. -/
def badTocRun (r : Run) : Bool :=
  !(decide (r.fontName = some "Calibri")) || !(decide (r.fontSize = some 11))

/-- Whether some TOC-styled paragraph has a run failing the Calibri/11pt
test (the source breaks out of both loops after the first). -/
def tocFontBad (d : Document) : Bool :=
  d.paragraphs.any (fun p => strStarts p.styleName "TOC" && p.runs.any badTocRun)

/-- `check_toc_font`: skipped entirely when no TOC marker is present. -/
def checkTocFont (d : Document) : List Issue :=
  if tocPresent d then
    (if tocFontBad d then [⟨IssueKind.tocFont, none⟩] else [])
  else []

/-- `check_format`: the issue list produced by the full check scan, in the
order the check methods run. -/
def check_format (d : Document) (stem : String) : List Issue :=
  checkBodyAux 0 d.paragraphs ++ checkHeadingsAux 0 d.paragraphs ++ checkTables d ++
  checkImagesAux 0 d.paragraphs ++ checkSpacingAux false 0 d.paragraphs ++
  checkProps d stem ++ checkToc d ++ checkTocFont d

/-! ## Fix methods -/

/-- Replace the element at an index, as Python item access does. -/
def modifyIdx : List α → Nat → (α → α) → List α
  | [], _, _ => []
  | a :: as, 0, f => f a :: as
  | a :: as, n+1, f => a :: modifyIdx as n f

/-- The run rewrite of the `body_font` branch of `fix_issue`. -/
def fixBodyRun (r : Run) : Run :=
  if runFontIn r fixFontExceptions then r
  else { r with fontName := some "Segoe UI", fontSize := some 10 }

/-- The `body_alignment` fix. -/
def alignJustP (p : Paragraph) : Paragraph := { p with alignment := some Align.justify }

/-- The `image_alignment` fix. -/
def alignCenterP (p : Paragraph) : Paragraph := { p with alignment := some Align.center }

/-- The `body_font` fix on a paragraph. -/
def bodyFontFixP (p : Paragraph) : Paragraph := { p with runs := p.runs.map fixBodyRun }

/-- The run rewrite of the `heading_format` fix: font name always, size
only when the style is in `specs` (`if size:`). -/
def headingRunFix (sz : Option Nat) (r : Run) : Run :=
  { r with fontName := some "Cambria",
           fontSize := match sz with | some s => some s | none => r.fontSize }

/-- The `heading_format` fix on a paragraph. -/
def headingFixP (p : Paragraph) : Paragraph :=
  { p with alignment := some Align.left,
           runs := p.runs.map (headingRunFix (headingSize p.styleName)) }

/-- The `line_spacing` fix. -/
def spacingFixP (p : Paragraph) : Paragraph :=
  { p with spaceBefore := some 6, spaceAfter := some 6, lineSpacing := some (133/100) }

/-- The run rewrite of `format_toc_font`. -/
def tocRunFix (r : Run) : Run := { r with fontName := some "Calibri", fontSize := some 11 }

/-- `format_toc_font` on one paragraph: only TOC-styled paragraphs change. -/
def tocFixPara (p : Paragraph) : Paragraph :=
  if strStarts p.styleName "TOC" then { p with runs := p.runs.map tocRunFix } else p

/-- The properties written by the `doc_properties` fix. -/
def stemProps (stem : String) : CoreProps := ⟨stem, stem, stem, stem, stem⟩

/-- The paragraph holding the text "Table of Contents" inserted by
`add_toc_to_document`: default Normal style, no direct formatting, and no
occurrence of the string TOC in its XML (the text is mixed-case). -/
def tocTitlePara : Paragraph :=
  { styleName := "Normal", runs := [⟨none, none, "Table of Contents"⟩],
    alignment := none, spaceBefore := none, spaceAfter := none, lineSpacing := none,
    hasDrawing := false, xmlHasTOC := false }

/-- The empty paragraph holding the TOC field inserted by
`add_toc_to_document`: its run carries only field characters and an
`instrText` starting with TOC, which contributes no run text but does put
the string TOC into the paragraph XML. -/
def tocFieldPara : Paragraph :=
  { styleName := "Normal", runs := [⟨none, none, ""⟩],
    alignment := none, spaceBefore := none, spaceAfter := none, lineSpacing := none,
    hasDrawing := false, xmlHasTOC := true }

/-- `EnhancedDocxProcessor.add_toc_to_document`: inserts the title
paragraph before paragraph 0, then the field paragraph before the new
paragraph 0, yielding field, title, then the old body.  (On an empty
paragraph list the source raises IndexError, which `apply_fixes` catches;
that path is modelled as the same prepend and is unreachable in the
theorems below, which all use non-empty documents.) -/
def addTocToDocument (d : Document) : Document :=
  { d with paragraphs := tocFieldPara :: tocTitlePara :: d.paragraphs }

/-! ## Table formatter -/

/-- The `symbols` list of `format_table`. -/
def symbolsList : List String := ["✓", "☒", "P", "-"]

/-- The run font rewrite inside `format_table` (a second copy of the same
exception-guarded assignment as the `body_font` fix, as in the source). -/
def formatCellRun (r : Run) : Run :=
  if runFontIn r fixFontExceptions then r
  else { r with fontName := some "Segoe UI", fontSize := some 10 }

/-- The alignment chosen by `format_table` for one cell paragraph: header
row uses `header_align`; legend tables center column 0 and justify the
rest; claim charts center column 0 and symbol-only paragraph texts; all
other body cells use `body_align`. -/
def cellParaAlign (config : TableConfig) (ri ci : Nat) (p : Paragraph) : Align :=
  if ri = 0 then config.headerAlign
  else if config.legendFormatting then
    (if ci = 0 then Align.center else Align.justify)
  else if config.type = "Claim Chart" then
    (if ci = 0 ∨ strTrim (paraText p) ∈ symbolsList then Align.center else Align.justify)
  else config.bodyAlign

/-- `format_table` on one cell paragraph: set the alignment, then rewrite
the fonts of all runs outside the exception set. -/
def formatCellPara (config : TableConfig) (ri ci : Nat) (p : Paragraph) : Paragraph :=
  { p with alignment := some (cellParaAlign config ri ci p),
           runs := p.runs.map formatCellRun }

/-- The cell loop of `format_table` with its `c_idx` counter. -/
def formatCells (config : TableConfig) (ri : Nat) : Nat → List Cell → List Cell
  | _, [] => []
  | ci, c :: cs =>
    { paragraphs := c.paragraphs.map (formatCellPara config ri ci) } ::
      formatCells config ri (ci+1) cs

/-- The row loop of `format_table` with its `r_idx` counter. -/
def formatRows (config : TableConfig) : Nat → List Row → List Row
  | _, [] => []
  | ri, r :: rs => { cells := formatCells config ri 0 r.cells } :: formatRows config (ri+1) rs

/-- `DocxFormatChecker.format_table`. -/
def format_table (t : Table) (precedingText : String) : Table :=
  { rows := formatRows (get_table_config t precedingText) 0 t.rows }

/-! ## Fix dispatch and orchestration -/

/-- `fix_issue`: dispatch on the issue type.  `format_all_tables` passes
each table the text of the paragraph preceding it in body order; the
document model keeps the `doc.paragraphs` and `doc.tables` views as
separate lists, and the preceding text is passed as the empty string,
which is sound because `get_table_config` never reads that argument
(lemma `get_table_config_ignores_preceding` below).  Per-paragraph issue
kinds without a paragraph index are never produced by the checker (the
source would raise KeyError); they leave the document unchanged. -/
def applyFix (stem : String) (d : Document) (iss : Issue) : Document :=
  match iss.kind, iss.para with
  | IssueKind.bodyAlignment, some i => { d with paragraphs := modifyIdx d.paragraphs i alignJustP }
  | IssueKind.bodyFont, some i => { d with paragraphs := modifyIdx d.paragraphs i bodyFontFixP }
  | IssueKind.headingFormat, some i => { d with paragraphs := modifyIdx d.paragraphs i headingFixP }
  | IssueKind.imageAlignment, some i => { d with paragraphs := modifyIdx d.paragraphs i alignCenterP }
  | IssueKind.lineSpacing, some i => { d with paragraphs := modifyIdx d.paragraphs i spacingFixP }
  | IssueKind.docProperties, _ => { d with props := stemProps stem }
  | IssueKind.tocMissing, _ => addTocToDocument d
  | IssueKind.tocFont, _ => { d with paragraphs := d.paragraphs.map tocFixPara }
  | IssueKind.fixAllTables, _ => { d with tables := d.tables.map (fun t => format_table t "") }
  | _, _ => d

/-- The fix loop of `apply_fixes` with its `applied_fixes` set: an issue
without a paragraph index whose type was already applied is skipped;
otherwise the fix runs and document-level types are added to the set. -/
def goFixes (stem : String) : List IssueKind → Document → List Issue → Document
  | _, d, [] => d
  | s, d, iss :: rest =>
    if iss.kind ∈ s ∧ iss.para = none then goFixes stem s d rest
    else goFixes stem (if iss.para = none then iss.kind :: s else s) (applyFix stem d iss) rest

/-- `apply_fixes` on a given issue list (the backup and save side effects
are outside the document model). -/
def apply_fixes (d : Document) (stem : String) (issues : List Issue) : Document :=
  goFixes stem [] d issues

/-- A check pass immediately followed by a fix pass over the issues it
reported. -/
def checkThenFix (d : Document) (stem : String) : Document :=
  apply_fixes d stem (check_format d stem)

/-! ## State-passing view of the check scan (for the read-only claim) -/

/-- One check method as a state transformer: it receives the document,
reads it, and returns it together with the issues it appends. -/
def checkStepSt (f : Document → List Issue) (st : Document × List Issue) :
    Document × List Issue :=
  (st.1, st.2 ++ f st.1)

/-- `check_format` with the document threaded through every check method
in source order, exposing that the scan only reads the document. -/
def check_format_st (d : Document) (stem : String) : Document × List Issue :=
  (checkStepSt checkTocFont
    (checkStepSt checkToc
      (checkStepSt (fun d => checkProps d stem)
        (checkStepSt (fun d => checkSpacingAux false 0 d.paragraphs)
          (checkStepSt (fun d => checkImagesAux 0 d.paragraphs)
            (checkStepSt checkTables
              (checkStepSt (fun d => checkHeadingsAux 0 d.paragraphs)
                (checkStepSt (fun d => checkBodyAux 0 d.paragraphs) (d, [])))))))))

/-! ## Orchestrator state for the failure-semantics claim -/

/-- The orchestrator state touched by `check_format`: the loaded document
and the recorded issue list. -/
structure AppState where
  doc : Option Document
  issues : List Issue
  deriving DecidableEq, Repr

/-- The `check_format` handler at the orchestrator boundary:
`self.issues = []` runs before the `try` block; inside it,
`Document(self.current_file)` either raises (modelled as `Except.error`),
in which case the handler shows one error message and stops, or yields the
document, which is stored and scanned. -/
def check_format_orch (st : AppState) (stem : String) (loaded : Except String Document) :
    AppState :=
  let st1 : AppState := { st with issues := [] }
  match loaded with
  | Except.error _ => st1
  | Except.ok d => { doc := some d, issues := check_format d stem }

/-! ## Characterisation machinery for the fix pass

The fix pass is a fold of `applyFix` over the checker's issue list.  The
lemmas below characterise its effect on each paragraph as one composite
per-paragraph function `pipePara`, applied in checker order. -/

/-- Apply `f` when the flag holds; each fix in the pipeline is guarded by
the condition under which the checker emitted the corresponding issue. -/
def condApp (c : Bool) (f : Paragraph → Paragraph) (q : Paragraph) : Paragraph :=
  if c then f q else q

/-- The composite effect of all per-paragraph fixes on the paragraph, in
the order the check methods emitted them: body alignment, body font, the
two possible heading issues, image alignment, spacing, then the
document-level TOC font pass.  All flags are computed on the original
paragraph, exactly as the checker did. -/
def pipePara (tocF spFlag : Bool) (p : Paragraph) : Paragraph :=
  condApp tocF tocFixPara
    (condApp spFlag spacingFixP
      (condApp (imageFlag p) alignCenterP
        (condApp (headingFontFlag p) headingFixP
          (condApp (headingAlignFlag p) headingFixP
            (condApp (bodyFontFlag p) bodyFontFixP
              (condApp (bodyAlignFlag p) alignJustP p))))))

/-- Whether `check_line_spacing` flags index `j` of `ps`, starting from
state `b`. -/
def spacingFlagAt : Bool → List Paragraph → Nat → Bool
  | _, [], _ => false
  | b, p :: _, 0 => spacingHeadFlag b p
  | b, p :: ps, j+1 => spacingFlagAt (scopeNext b p) ps j

/-- The whole fix pass viewed as a direct formatter over the paragraph
list, threading the Heading-1-scope state. -/
def normalizeParas (tocF : Bool) : Bool → List Paragraph → List Paragraph
  | _, [] => []
  | b, p :: ps => pipePara tocF (spacingHeadFlag b p) p :: normalizeParas tocF (scopeNext b p) ps

/-- The action of one issue's fix on the paragraph at index `i`. -/
def paraAct (i : Nat) (q : Paragraph) (iss : Issue) : Paragraph :=
  match iss.kind, iss.para with
  | IssueKind.bodyAlignment, some j => if j = i then alignJustP q else q
  | IssueKind.bodyFont, some j => if j = i then bodyFontFixP q else q
  | IssueKind.headingFormat, some j => if j = i then headingFixP q else q
  | IssueKind.imageAlignment, some j => if j = i then alignCenterP q else q
  | IssueKind.lineSpacing, some j => if j = i then spacingFixP q else q
  | IssueKind.tocFont, _ => tocFixPara q
  | _, _ => q

theorem modifyIdx_getElem? (l : List α) (i j : Nat) (f : α → α) :
    (modifyIdx l i f)[j]? = if i = j then l[j]?.map f else l[j]? := by
  induction l generalizing i j with
  | nil => simp [modifyIdx]
  | cons a as ih =>
    cases i with
    | zero => cases j <;> simp [modifyIdx]
    | succ n =>
      cases j with
      | zero => simp [modifyIdx]
      | succ m => simpa [modifyIdx, Nat.succ_inj] using ih n m

/-- One `applyFix` step, seen at the paragraph of index `i`; the
`toc_missing` fix is the only one that inserts paragraphs and is excluded. -/
theorem applyFix_paragraphs_getElem? (stem : String) (d : Document) (iss : Issue) (i : Nat)
    (h : iss.kind ≠ IssueKind.tocMissing) :
    (applyFix stem d iss).paragraphs[i]? = d.paragraphs[i]?.map (fun p => paraAct i p iss) := by
  obtain ⟨k, pa⟩ := iss
  cases k <;> cases pa <;>
    simp_all [applyFix, paraAct, modifyIdx_getElem?, List.getElem?_map] <;>
    (split <;> cases d.paragraphs[i]? <;> simp)

/-- Master lemma: over an issue list free of `toc_missing`, the fold of
`applyFix` acts on the paragraph at index `i` as the fold of `paraAct i`. -/
theorem foldl_applyFix_getElem? (stem : String) (L : List Issue)
    (hL : ∀ iss ∈ L, iss.kind ≠ IssueKind.tocMissing) (d : Document) (i : Nat) :
    (L.foldl (applyFix stem) d).paragraphs[i]? =
      d.paragraphs[i]?.map (fun p => L.foldl (paraAct i) p) := by
  induction L generalizing d with
  | nil => simp
  | cons iss rest ih =>
    have h1 := applyFix_paragraphs_getElem? stem d iss i (hL iss (by simp))
    have h2 := ih (fun j hj => hL j (by simp [hj])) (applyFix stem d iss)
    simp only [List.foldl_cons] at *
    rw [h2, h1]
    cases hp : d.paragraphs[i]? <;> simp

/-- `applyFix` touches the properties only through the `doc_properties`
fix, which writes the filename stem into all five fields. -/
theorem applyFix_props (stem : String) (d : Document) (iss : Issue) :
    (applyFix stem d iss).props =
      if iss.kind = IssueKind.docProperties then stemProps stem else d.props := by
  obtain ⟨k, pa⟩ := iss
  cases k <;> cases pa <;> simp [applyFix, addTocToDocument]

theorem foldl_applyFix_props (stem : String) (L : List Issue) (d : Document) :
    (L.foldl (applyFix stem) d).props =
      if L.any (fun iss => decide (iss.kind = IssueKind.docProperties)) then stemProps stem
      else d.props := by
  induction L generalizing d with
  | nil => simp
  | cons iss rest ih =>
    simp only [List.foldl_cons, List.any_cons]
    rw [ih]
    by_cases hk : iss.kind = IssueKind.docProperties <;>
      simp [hk, applyFix_props]

/-- The issue kinds of the document-level issues (those without a
paragraph index), which drive the `applied_fixes` dedup set. -/
def docKinds (L : List Issue) : List IssueKind :=
  L.filterMap (fun iss => match iss.para with | none => some iss.kind | some _ => none)

/-- When every document-level kind of `L` is fresh and occurs once, the
`applied_fixes` set never skips anything and the fix loop is a plain fold. -/
theorem goFixes_eq_foldl (stem : String) (L : List Issue) :
    ∀ (s : List IssueKind) (d : Document), (∀ k ∈ docKinds L, k ∉ s) → (docKinds L).Nodup →
    goFixes stem s d L = L.foldl (applyFix stem) d := by
  induction L with
  | nil => intro s d _ _; rfl
  | cons iss rest ih =>
    intro s d hfresh hnd
    cases hpa : iss.para with
    | none =>
      have hdk : docKinds (iss :: rest) = iss.kind :: docKinds rest := by
        simp [docKinds, hpa]
      rw [hdk] at hfresh hnd
      have hks : iss.kind ∉ s := hfresh _ (by simp)
      have hskip : ¬(iss.kind ∈ s ∧ iss.para = none) := fun hc => hks hc.1
      rw [goFixes, if_neg hskip, hpa]
      simp only [List.foldl_cons]
      exact ih _ _
        (fun k hk => by
          have hne : k ≠ iss.kind := fun he => (List.nodup_cons.mp hnd).1 (he ▸ hk)
          have := hfresh k (by simp [hk])
          simp [hne, this])
        (List.nodup_cons.mp hnd).2
    | some j =>
      have hdk : docKinds (iss :: rest) = docKinds rest := by
        simp [docKinds, hpa]
      rw [hdk] at hfresh hnd
      have hskip : ¬(iss.kind ∈ s ∧ iss.para = none) := fun hc => by simp [hpa] at hc
      rw [goFixes, if_neg hskip, hpa]
      simp only [List.foldl_cons]
      exact ih _ _ hfresh hnd

theorem condApp_true (f : Paragraph → Paragraph) (q : Paragraph) : condApp true f q = f q := rfl

theorem condApp_false (f : Paragraph → Paragraph) (q : Paragraph) : condApp false f q = q := rfl

/-- Issues aimed at other paragraph indices leave this paragraph alone. -/
theorem foldl_paraAct_id (i : Nat) (L : List Issue)
    (h : ∀ iss ∈ L, iss.kind ≠ IssueKind.tocFont ∧ ∃ m, iss.para = some m ∧ m ≠ i) :
    ∀ q : Paragraph, L.foldl (paraAct i) q = q := by
  induction L with
  | nil => intro q; rfl
  | cons iss rest ih =>
    intro q
    obtain ⟨hk, m, hm, hne⟩ := h iss (by simp)
    have hstep : paraAct i q iss = q := by
      obtain ⟨k, pa⟩ := iss
      cases k <;> simp_all [paraAct]
    simp only [List.foldl_cons, hstep]
    exact ih (fun j hj => h j (by simp [hj])) q

theorem mem_checkBodyAux {iss : Issue} : ∀ {k : Nat} {ps : List Paragraph},
    iss ∈ checkBodyAux k ps →
    ∃ m, k ≤ m ∧ iss.para = some m ∧
      (iss.kind = IssueKind.bodyAlignment ∨ iss.kind = IssueKind.bodyFont) := by
  intro k ps
  induction ps generalizing k with
  | nil => simp [checkBodyAux]
  | cons p rest ih =>
    intro hmem
    simp only [checkBodyAux, List.mem_append] at hmem
    rcases hmem with (h | h) | h
    · refine ⟨k, le_refl k, ?_⟩
      rcases Bool.eq_false_or_eq_true (bodyAlignFlag p) with hf | hf <;> simp_all
    · refine ⟨k, le_refl k, ?_⟩
      rcases Bool.eq_false_or_eq_true (bodyFontFlag p) with hf | hf <;> simp_all
    · obtain ⟨m, hm1, hm2⟩ := ih h
      exact ⟨m, le_trans (Nat.le_succ k) hm1, hm2⟩

theorem mem_checkHeadingsAux {iss : Issue} : ∀ {k : Nat} {ps : List Paragraph},
    iss ∈ checkHeadingsAux k ps →
    ∃ m, k ≤ m ∧ iss.para = some m ∧ iss.kind = IssueKind.headingFormat := by
  intro k ps
  induction ps generalizing k with
  | nil => simp [checkHeadingsAux]
  | cons p rest ih =>
    intro hmem
    simp only [checkHeadingsAux, List.mem_append] at hmem
    rcases hmem with (h | h) | h
    · refine ⟨k, le_refl k, ?_⟩
      rcases Bool.eq_false_or_eq_true (headingAlignFlag p) with hf | hf <;> simp_all
    · refine ⟨k, le_refl k, ?_⟩
      rcases Bool.eq_false_or_eq_true (headingFontFlag p) with hf | hf <;> simp_all
    · obtain ⟨m, hm1, hm2⟩ := ih h
      exact ⟨m, le_trans (Nat.le_succ k) hm1, hm2⟩

theorem mem_checkImagesAux {iss : Issue} : ∀ {k : Nat} {ps : List Paragraph},
    iss ∈ checkImagesAux k ps →
    ∃ m, k ≤ m ∧ iss.para = some m ∧ iss.kind = IssueKind.imageAlignment := by
  intro k ps
  induction ps generalizing k with
  | nil => simp [checkImagesAux]
  | cons p rest ih =>
    intro hmem
    simp only [checkImagesAux, List.mem_append] at hmem
    rcases hmem with h | h
    · refine ⟨k, le_refl k, ?_⟩
      rcases Bool.eq_false_or_eq_true (imageFlag p) with hf | hf <;> simp_all
    · obtain ⟨m, hm1, hm2⟩ := ih h
      exact ⟨m, le_trans (Nat.le_succ k) hm1, hm2⟩

theorem mem_checkSpacingAux {iss : Issue} : ∀ {b : Bool} {k : Nat} {ps : List Paragraph},
    iss ∈ checkSpacingAux b k ps →
    ∃ m, k ≤ m ∧ iss.para = some m ∧ iss.kind = IssueKind.lineSpacing := by
  intro b k ps
  induction ps generalizing b k with
  | nil => simp [checkSpacingAux]
  | cons p rest ih =>
    intro hmem
    simp only [checkSpacingAux, List.mem_append] at hmem
    rcases hmem with h | h
    · refine ⟨k, le_refl k, ?_⟩
      rcases Bool.eq_false_or_eq_true (spacingHeadFlag b p) with hf | hf <;> simp_all
    · obtain ⟨m, hm1, hm2⟩ := ih h
      exact ⟨m, le_trans (Nat.le_succ k) hm1, hm2⟩

/-- The `check_body_text` issues, folded at index `k + j`, perform exactly
the body fixes flagged for the paragraph at offset `j`. -/
theorem foldl_paraAct_checkBodyAux : ∀ (ps : List Paragraph) (k j : Nat) (p q : Paragraph),
    ps[j]? = some p →
    (checkBodyAux k ps).foldl (paraAct (k + j)) q =
      condApp (bodyFontFlag p) bodyFontFixP (condApp (bodyAlignFlag p) alignJustP q) := by
  intro ps
  induction ps with
  | nil => intro k j p q h; simp at h
  | cons p0 rest ih =>
    intro k j p q h
    cases j with
    | zero =>
      simp only [List.getElem?_cons_zero, Option.some_inj] at h
      subst h
      simp only [checkBodyAux, Nat.add_zero, List.foldl_append]
      have hrest : ∀ q', (checkBodyAux (k+1) rest).foldl (paraAct k) q' = q' := by
        intro q'
        refine foldl_paraAct_id k _ (fun iss hiss => ?_) q'
        obtain ⟨m, hm1, hm2, hm3⟩ := mem_checkBodyAux hiss
        exact ⟨by rcases hm3 with h3 | h3 <;> simp [h3], m, hm2, by omega⟩
      rw [hrest]
      rcases Bool.eq_false_or_eq_true (bodyAlignFlag p0) with ha | ha <;>
        rcases Bool.eq_false_or_eq_true (bodyFontFlag p0) with hf | hf <;>
        simp [ha, hf, condApp, paraAct]
    | succ j' =>
      simp only [List.getElem?_cons_succ] at h
      have hstep : ∀ q', ((if bodyAlignFlag p0 then [(⟨IssueKind.bodyAlignment, some k⟩ : Issue)] else []) ++
          (if bodyFontFlag p0 then [(⟨IssueKind.bodyFont, some k⟩ : Issue)] else [])).foldl
            (paraAct (k + (j' + 1))) q' = q' := by
        intro q'
        refine foldl_paraAct_id _ _ (fun iss hiss => ?_) q'
        simp only [List.mem_append] at hiss
        rcases hiss with hh | hh <;>
          [rcases Bool.eq_false_or_eq_true (bodyAlignFlag p0) with hf | hf;
           rcases Bool.eq_false_or_eq_true (bodyFontFlag p0) with hf | hf] <;>
          simp_all
      have : checkBodyAux k (p0 :: rest) =
          ((if bodyAlignFlag p0 then [(⟨IssueKind.bodyAlignment, some k⟩ : Issue)] else []) ++
           (if bodyFontFlag p0 then [(⟨IssueKind.bodyFont, some k⟩ : Issue)] else [])) ++
          checkBodyAux (k+1) rest := by
        simp [checkBodyAux]
      rw [this, List.foldl_append, hstep]
      have harith : k + (j' + 1) = (k + 1) + j' := by omega
      rw [harith]
      exact ih (k+1) j' p q h

/-- Same reduction for `check_headings` (its two issues both dispatch to
the full heading fix). -/
theorem foldl_paraAct_checkHeadingsAux : ∀ (ps : List Paragraph) (k j : Nat) (p q : Paragraph),
    ps[j]? = some p →
    (checkHeadingsAux k ps).foldl (paraAct (k + j)) q =
      condApp (headingFontFlag p) headingFixP (condApp (headingAlignFlag p) headingFixP q) := by
  intro ps
  induction ps with
  | nil => intro k j p q h; simp at h
  | cons p0 rest ih =>
    intro k j p q h
    cases j with
    | zero =>
      simp only [List.getElem?_cons_zero, Option.some_inj] at h
      subst h
      simp only [checkHeadingsAux, Nat.add_zero, List.foldl_append]
      have hrest : ∀ q', (checkHeadingsAux (k+1) rest).foldl (paraAct k) q' = q' := by
        intro q'
        refine foldl_paraAct_id k _ (fun iss hiss => ?_) q'
        obtain ⟨m, hm1, hm2, hm3⟩ := mem_checkHeadingsAux hiss
        exact ⟨by simp [hm3], m, hm2, by omega⟩
      rw [hrest]
      rcases Bool.eq_false_or_eq_true (headingAlignFlag p0) with ha | ha <;>
        rcases Bool.eq_false_or_eq_true (headingFontFlag p0) with hf | hf <;>
        simp [ha, hf, condApp, paraAct]
    | succ j' =>
      simp only [List.getElem?_cons_succ] at h
      have hstep : ∀ q', ((if headingAlignFlag p0 then [(⟨IssueKind.headingFormat, some k⟩ : Issue)] else []) ++
          (if headingFontFlag p0 then [(⟨IssueKind.headingFormat, some k⟩ : Issue)] else [])).foldl
            (paraAct (k + (j' + 1))) q' = q' := by
        intro q'
        refine foldl_paraAct_id _ _ (fun iss hiss => ?_) q'
        simp only [List.mem_append] at hiss
        rcases hiss with hh | hh <;>
          [rcases Bool.eq_false_or_eq_true (headingAlignFlag p0) with hf | hf;
           rcases Bool.eq_false_or_eq_true (headingFontFlag p0) with hf | hf] <;>
          simp_all
      have : checkHeadingsAux k (p0 :: rest) =
          ((if headingAlignFlag p0 then [(⟨IssueKind.headingFormat, some k⟩ : Issue)] else []) ++
           (if headingFontFlag p0 then [(⟨IssueKind.headingFormat, some k⟩ : Issue)] else [])) ++
          checkHeadingsAux (k+1) rest := by
        simp [checkHeadingsAux]
      rw [this, List.foldl_append, hstep]
      have harith : k + (j' + 1) = (k + 1) + j' := by omega
      rw [harith]
      exact ih (k+1) j' p q h

/-- Same reduction for `check_images`. -/
theorem foldl_paraAct_checkImagesAux : ∀ (ps : List Paragraph) (k j : Nat) (p q : Paragraph),
    ps[j]? = some p →
    (checkImagesAux k ps).foldl (paraAct (k + j)) q = condApp (imageFlag p) alignCenterP q := by
  intro ps
  induction ps with
  | nil => intro k j p q h; simp at h
  | cons p0 rest ih =>
    intro k j p q h
    cases j with
    | zero =>
      simp only [List.getElem?_cons_zero, Option.some_inj] at h
      subst h
      simp only [checkImagesAux, Nat.add_zero, List.foldl_append]
      have hrest : ∀ q', (checkImagesAux (k+1) rest).foldl (paraAct k) q' = q' := by
        intro q'
        refine foldl_paraAct_id k _ (fun iss hiss => ?_) q'
        obtain ⟨m, hm1, hm2, hm3⟩ := mem_checkImagesAux hiss
        exact ⟨by simp [hm3], m, hm2, by omega⟩
      rw [hrest]
      rcases Bool.eq_false_or_eq_true (imageFlag p0) with ha | ha <;>
        simp [ha, condApp, paraAct]
    | succ j' =>
      simp only [List.getElem?_cons_succ] at h
      have hstep : ∀ q', ((if imageFlag p0 then [(⟨IssueKind.imageAlignment, some k⟩ : Issue)] else [])).foldl
            (paraAct (k + (j' + 1))) q' = q' := by
        intro q'
        refine foldl_paraAct_id _ _ (fun iss hiss => ?_) q'
        rcases Bool.eq_false_or_eq_true (imageFlag p0) with hf | hf <;> simp_all
      have : checkImagesAux k (p0 :: rest) =
          (if imageFlag p0 then [(⟨IssueKind.imageAlignment, some k⟩ : Issue)] else []) ++
          checkImagesAux (k+1) rest := by
        simp [checkImagesAux]
      rw [this, List.foldl_append, hstep]
      have harith : k + (j' + 1) = (k + 1) + j' := by omega
      rw [harith]
      exact ih (k+1) j' p q h

/-- Same reduction for `check_line_spacing`, with the threaded state. -/
theorem foldl_paraAct_checkSpacingAux : ∀ (ps : List Paragraph) (b : Bool) (k j : Nat) (q : Paragraph),
    (checkSpacingAux b k ps).foldl (paraAct (k + j)) q =
      condApp (spacingFlagAt b ps j) spacingFixP q := by
  intro ps
  induction ps with
  | nil => intro b k j q; simp [checkSpacingAux, spacingFlagAt, condApp]
  | cons p0 rest ih =>
    intro b k j q
    cases j with
    | zero =>
      simp only [checkSpacingAux, Nat.add_zero, List.foldl_append, spacingFlagAt]
      have hrest : ∀ q', (checkSpacingAux (scopeNext b p0) (k+1) rest).foldl (paraAct k) q' = q' := by
        intro q'
        refine foldl_paraAct_id k _ (fun iss hiss => ?_) q'
        obtain ⟨m, hm1, hm2, hm3⟩ := mem_checkSpacingAux hiss
        exact ⟨by simp [hm3], m, hm2, by omega⟩
      rw [hrest]
      rcases Bool.eq_false_or_eq_true (spacingHeadFlag b p0) with ha | ha <;>
        simp [ha, condApp, paraAct]
    | succ j' =>
      simp only [checkSpacingAux, List.foldl_append, spacingFlagAt]
      have hstep : ∀ q', ((if spacingHeadFlag b p0 then [(⟨IssueKind.lineSpacing, some k⟩ : Issue)] else [])).foldl
            (paraAct (k + (j' + 1))) q' = q' := by
        intro q'
        refine foldl_paraAct_id _ _ (fun iss hiss => ?_) q'
        rcases Bool.eq_false_or_eq_true (spacingHeadFlag b p0) with hf | hf <;> simp_all
      rw [hstep]
      have harith : k + (j' + 1) = (k + 1) + j' := by omega
      rw [harith]
      exact ih (scopeNext b p0) (k+1) j' q

theorem foldl_paraAct_checkTables (d : Document) (i : Nat) (q : Paragraph) :
    (checkTables d).foldl (paraAct i) q = q := by
  unfold checkTables; split <;> simp [paraAct]

theorem foldl_paraAct_checkProps (d : Document) (stem : String) (i : Nat) (q : Paragraph) :
    (checkProps d stem).foldl (paraAct i) q = q := by
  unfold checkProps; split <;> simp [paraAct]

theorem foldl_paraAct_checkTocFont (d : Document) (hToc : tocPresent d = true) (i : Nat) (q : Paragraph) :
    (checkTocFont d).foldl (paraAct i) q = condApp (tocFontBad d) tocFixPara q := by
  unfold checkTocFont
  rw [if_pos hToc]
  rcases Bool.eq_false_or_eq_true (tocFontBad d) with h | h <;> simp [h, condApp, paraAct]

theorem normalizeParas_getElem? (tocF : Bool) : ∀ (ps : List Paragraph) (b : Bool) (i : Nat),
    (normalizeParas tocF b ps)[i]? =
      ps[i]?.map (fun p => pipePara tocF (spacingFlagAt b ps i) p) := by
  intro ps
  induction ps with
  | nil => intro b i; simp [normalizeParas]
  | cons p rest ih =>
    intro b i
    cases i with
    | zero => simp [normalizeParas, spacingFlagAt]
    | succ j => simp [normalizeParas, spacingFlagAt, ih]

/-- The first six check segments: everything before the TOC checks. -/
def checkNoToc (d : Document) (stem : String) : List Issue :=
  checkBodyAux 0 d.paragraphs ++ checkHeadingsAux 0 d.paragraphs ++ checkTables d ++
  checkImagesAux 0 d.paragraphs ++ checkSpacingAux false 0 d.paragraphs ++ checkProps d stem

theorem check_format_split (d : Document) (stem : String) :
    check_format d stem = checkNoToc d stem ++ (checkToc d ++ checkTocFont d) := by
  simp [check_format, checkNoToc, List.append_assoc]

theorem mem_checkTables {iss : Issue} (h : iss ∈ checkTables d) :
    iss.kind = IssueKind.fixAllTables ∧ iss.para = none := by
  unfold checkTables at h
  rcases Bool.eq_false_or_eq_true d.tables.isEmpty with he | he <;> simp_all

theorem mem_checkProps {iss : Issue} (h : iss ∈ checkProps d stem) :
    iss.kind = IssueKind.docProperties ∧ iss.para = none := by
  unfold checkProps at h
  rcases Bool.eq_false_or_eq_true (propsBad d.props stem) with he | he <;> simp_all

theorem mem_checkNoToc_not_tocMissing {iss : Issue} (h : iss ∈ checkNoToc d stem) :
    iss.kind ≠ IssueKind.tocMissing := by
  simp only [checkNoToc, List.mem_append] at h
  rcases h with ((((h | h) | h) | h) | h) | h
  · obtain ⟨m, _, _, h3⟩ := mem_checkBodyAux h
    rcases h3 with h3 | h3 <;> simp [h3]
  · obtain ⟨m, _, _, h3⟩ := mem_checkHeadingsAux h; simp [h3]
  · simp [(mem_checkTables h).1]
  · obtain ⟨m, _, _, h3⟩ := mem_checkImagesAux h; simp [h3]
  · obtain ⟨m, _, _, h3⟩ := mem_checkSpacingAux h; simp [h3]
  · simp [(mem_checkProps h).1]

/-- The six pre-TOC segments act on each paragraph as `pipePara` without
the TOC-font stage. -/
theorem foldl_checkNoToc_paragraphs (d : Document) (stem : String) :
    ((checkNoToc d stem).foldl (applyFix stem) d).paragraphs =
      normalizeParas false false d.paragraphs := by
  apply List.ext_getElem?
  intro i
  rw [foldl_applyFix_getElem? stem _ (fun iss hiss => mem_checkNoToc_not_tocMissing hiss) d i,
    normalizeParas_getElem?]
  cases hp : d.paragraphs[i]? with
  | none => rfl
  | some p =>
    simp only [Option.map_some']
    congr 1
    have hi0 : i = 0 + i := by omega
    simp only [checkNoToc, List.foldl_append]
    rw [hi0]
    rw [foldl_paraAct_checkBodyAux d.paragraphs 0 i p _ hp,
      foldl_paraAct_checkHeadingsAux d.paragraphs 0 i p _ hp]
    rw [show (0 + i) = i from by omega, foldl_paraAct_checkTables]
    rw [hi0, foldl_paraAct_checkImagesAux d.paragraphs 0 i p _ hp,
      foldl_paraAct_checkSpacingAux d.paragraphs false 0 i _]
    rw [show (0 + i) = i from by omega, foldl_paraAct_checkProps]
    simp [pipePara, condApp_false]

theorem normalizeParas_map_toc : ∀ (ps : List Paragraph) (b : Bool),
    (normalizeParas false b ps).map tocFixPara = normalizeParas true b ps := by
  intro ps
  induction ps with
  | nil => intro b; rfl
  | cons p rest ih =>
    intro b
    simp only [normalizeParas, List.map_cons, ih]
    rfl

/-- The per-segment doc-level kind lists. -/
theorem docKinds_append (L1 L2 : List Issue) :
    docKinds (L1 ++ L2) = docKinds L1 ++ docKinds L2 := by
  simp [docKinds]

theorem docKinds_eq_nil_of_para {L : List Issue}
    (h : ∀ iss ∈ L, ∃ m, iss.para = some m) : docKinds L = [] := by
  rw [docKinds, List.filterMap_eq_nil]
  intro iss hiss
  obtain ⟨m, hm⟩ := h iss hiss
  simp [hm]

theorem docKinds_check_format (d : Document) (stem : String) :
    (docKinds (check_format d stem)).Nodup := by
  have hb : docKinds (checkBodyAux 0 d.paragraphs) = [] :=
    docKinds_eq_nil_of_para (fun iss h => by
      obtain ⟨m, _, hm, _⟩ := mem_checkBodyAux h; exact ⟨m, hm⟩)
  have hh : docKinds (checkHeadingsAux 0 d.paragraphs) = [] :=
    docKinds_eq_nil_of_para (fun iss h => by
      obtain ⟨m, _, hm, _⟩ := mem_checkHeadingsAux h; exact ⟨m, hm⟩)
  have hi : docKinds (checkImagesAux 0 d.paragraphs) = [] :=
    docKinds_eq_nil_of_para (fun iss h => by
      obtain ⟨m, _, hm, _⟩ := mem_checkImagesAux h; exact ⟨m, hm⟩)
  have hs : docKinds (checkSpacingAux false 0 d.paragraphs) = [] :=
    docKinds_eq_nil_of_para (fun iss h => by
      obtain ⟨m, _, hm, _⟩ := mem_checkSpacingAux h; exact ⟨m, hm⟩)
  have hsplit : docKinds (check_format d stem) =
      docKinds (checkTables d) ++ docKinds (checkProps d stem) ++
      docKinds (checkToc d) ++ docKinds (checkTocFont d) := by
    simp [check_format, docKinds_append, hb, hh, hi, hs]
  rw [hsplit]
  rcases Bool.eq_false_or_eq_true d.tables.isEmpty with h1 | h1 <;>
    rcases Bool.eq_false_or_eq_true (propsBad d.props stem) with h2 | h2 <;>
    rcases Bool.eq_false_or_eq_true (tocPresent d) with h3 | h3 <;>
    rcases Bool.eq_false_or_eq_true (tocFontBad d) with h4 | h4 <;>
    simp [checkTables, checkProps, checkToc, checkTocFont, h1, h2, h3, h4, docKinds]

/-- The fix pass over a checker-produced issue list is a plain fold (no
document-level kind repeats, so the `applied_fixes` set never skips). -/
theorem checkThenFix_eq_foldl (d : Document) (stem : String) :
    checkThenFix d stem = (check_format d stem).foldl (applyFix stem) d :=
  goFixes_eq_foldl stem _ [] d (fun k _ => by simp) (docKinds_check_format d stem)

/-- Main characterisation: when the document has a TOC marker, the whole
check-then-fix pass rewrites the paragraph list to `normalizeParas`. -/
theorem checkThenFix_paragraphs (d : Document) (stem : String) (hToc : tocPresent d = true) :
    (checkThenFix d stem).paragraphs = normalizeParas (tocFontBad d) false d.paragraphs := by
  rw [checkThenFix_eq_foldl, check_format_split, List.foldl_append, List.foldl_append]
  have htoc_nil : checkToc d = [] := by simp [checkToc, hToc]
  rw [htoc_nil]
  simp only [List.foldl_nil]
  set d6 := (checkNoToc d stem).foldl (applyFix stem) d with hd6
  have h6 : d6.paragraphs = normalizeParas false false d.paragraphs :=
    foldl_checkNoToc_paragraphs d stem
  have htf : checkTocFont d =
      if tocFontBad d then [(⟨IssueKind.tocFont, none⟩ : Issue)] else [] := by
    simp [checkTocFont, hToc]
  rw [htf]
  rcases Bool.eq_false_or_eq_true (tocFontBad d) with h4 | h4
  · rw [h4, if_pos rfl]
    simp only [List.foldl_cons, List.foldl_nil]
    show (applyFix stem d6 ⟨IssueKind.tocFont, none⟩).paragraphs = _
    simp only [applyFix]
    rw [h6, normalizeParas_map_toc]
  · rw [h4, if_neg (by simp), List.foldl_nil]
    exact h6

/-! ## Attribute behaviour of the composite paragraph pipeline -/

theorem mapText_eq (g : Run → Run) (h : ∀ r, (g r).text = r.text) :
    ∀ l : List Run, l.map (Run.text ∘ g) = l.map Run.text := by
  intro l
  induction l with
  | nil => rfl
  | cons r rest ih => simp [Function.comp, h, ih]

theorem tocFixPara_styleName (q : Paragraph) : (tocFixPara q).styleName = q.styleName := by
  unfold tocFixPara; split <;> rfl

theorem tocFixPara_alignment (q : Paragraph) : (tocFixPara q).alignment = q.alignment := by
  unfold tocFixPara; split <;> rfl

theorem tocFixPara_hasDrawing (q : Paragraph) : (tocFixPara q).hasDrawing = q.hasDrawing := by
  unfold tocFixPara; split <;> rfl

theorem tocFixPara_xmlHasTOC (q : Paragraph) : (tocFixPara q).xmlHasTOC = q.xmlHasTOC := by
  unfold tocFixPara; split <;> rfl

theorem tocFixPara_spaceBefore (q : Paragraph) : (tocFixPara q).spaceBefore = q.spaceBefore := by
  unfold tocFixPara; split <;> rfl

theorem tocFixPara_spaceAfter (q : Paragraph) : (tocFixPara q).spaceAfter = q.spaceAfter := by
  unfold tocFixPara; split <;> rfl

theorem tocFixPara_lineSpacing (q : Paragraph) : (tocFixPara q).lineSpacing = q.lineSpacing := by
  unfold tocFixPara; split <;> rfl

theorem tocFixPara_paraText (q : Paragraph) : paraText (tocFixPara q) = paraText q := by
  unfold tocFixPara
  split
  · simp only [paraText, List.map_map]
    rw [mapText_eq tocRunFix (fun r => rfl)]
  · rfl

theorem bodyFontFixP_paraText (q : Paragraph) : paraText (bodyFontFixP q) = paraText q := by
  have hfix : ∀ r, (fixBodyRun r).text = r.text := by
    intro r; unfold fixBodyRun; split <;> rfl
  simp only [bodyFontFixP, paraText, List.map_map]
  rw [mapText_eq fixBodyRun hfix]

theorem headingFixP_paraText (q : Paragraph) : paraText (headingFixP q) = paraText q := by
  simp only [headingFixP, paraText, List.map_map]
  rw [mapText_eq (headingRunFix (headingSize q.styleName)) (fun r => rfl)]

theorem alignJustP_paraText (q : Paragraph) : paraText (alignJustP q) = paraText q := rfl

theorem alignCenterP_paraText (q : Paragraph) : paraText (alignCenterP q) = paraText q := rfl

theorem spacingFixP_paraText (q : Paragraph) : paraText (spacingFixP q) = paraText q := rfl

theorem pipePara_styleName (tocF fl : Bool) (p : Paragraph) :
    (pipePara tocF fl p).styleName = p.styleName := by
  unfold pipePara
  rcases Bool.eq_false_or_eq_true (bodyAlignFlag p) with h1 | h1 <;>
    rcases Bool.eq_false_or_eq_true (bodyFontFlag p) with h2 | h2 <;>
    rcases Bool.eq_false_or_eq_true (headingAlignFlag p) with h3 | h3 <;>
    rcases Bool.eq_false_or_eq_true (headingFontFlag p) with h4 | h4 <;>
    rcases Bool.eq_false_or_eq_true (imageFlag p) with h5 | h5 <;>
    cases fl <;> cases tocF <;>
    simp [condApp, h1, h2, h3, h4, h5, tocFixPara_styleName,
      alignJustP, alignCenterP, bodyFontFixP, headingFixP, spacingFixP]

theorem pipePara_hasDrawing (tocF fl : Bool) (p : Paragraph) :
    (pipePara tocF fl p).hasDrawing = p.hasDrawing := by
  unfold pipePara
  rcases Bool.eq_false_or_eq_true (bodyAlignFlag p) with h1 | h1 <;>
    rcases Bool.eq_false_or_eq_true (bodyFontFlag p) with h2 | h2 <;>
    rcases Bool.eq_false_or_eq_true (headingAlignFlag p) with h3 | h3 <;>
    rcases Bool.eq_false_or_eq_true (headingFontFlag p) with h4 | h4 <;>
    rcases Bool.eq_false_or_eq_true (imageFlag p) with h5 | h5 <;>
    cases fl <;> cases tocF <;>
    simp [condApp, h1, h2, h3, h4, h5, tocFixPara_hasDrawing,
      alignJustP, alignCenterP, bodyFontFixP, headingFixP, spacingFixP]

theorem pipePara_xmlHasTOC (tocF fl : Bool) (p : Paragraph) :
    (pipePara tocF fl p).xmlHasTOC = p.xmlHasTOC := by
  unfold pipePara
  rcases Bool.eq_false_or_eq_true (bodyAlignFlag p) with h1 | h1 <;>
    rcases Bool.eq_false_or_eq_true (bodyFontFlag p) with h2 | h2 <;>
    rcases Bool.eq_false_or_eq_true (headingAlignFlag p) with h3 | h3 <;>
    rcases Bool.eq_false_or_eq_true (headingFontFlag p) with h4 | h4 <;>
    rcases Bool.eq_false_or_eq_true (imageFlag p) with h5 | h5 <;>
    cases fl <;> cases tocF <;>
    simp [condApp, h1, h2, h3, h4, h5, tocFixPara_xmlHasTOC,
      alignJustP, alignCenterP, bodyFontFixP, headingFixP, spacingFixP]

theorem pipePara_paraText (tocF fl : Bool) (p : Paragraph) :
    paraText (pipePara tocF fl p) = paraText p := by
  unfold pipePara
  rcases Bool.eq_false_or_eq_true (bodyAlignFlag p) with h1 | h1 <;>
    rcases Bool.eq_false_or_eq_true (bodyFontFlag p) with h2 | h2 <;>
    rcases Bool.eq_false_or_eq_true (headingAlignFlag p) with h3 | h3 <;>
    rcases Bool.eq_false_or_eq_true (headingFontFlag p) with h4 | h4 <;>
    rcases Bool.eq_false_or_eq_true (imageFlag p) with h5 | h5 <;>
    cases fl <;> cases tocF <;>
    simp [condApp, h1, h2, h3, h4, h5, tocFixPara_paraText, bodyFontFixP_paraText,
      headingFixP_paraText, alignJustP_paraText, alignCenterP_paraText, spacingFixP_paraText]

theorem pipePara_alignment (tocF fl : Bool) (p : Paragraph) :
    (pipePara tocF fl p).alignment =
      if imageFlag p then some Align.center
      else if headingFontFlag p then some Align.left
      else if headingAlignFlag p then some Align.left
      else if bodyAlignFlag p then some Align.justify
      else p.alignment := by
  unfold pipePara
  rcases Bool.eq_false_or_eq_true (bodyAlignFlag p) with h1 | h1 <;>
    rcases Bool.eq_false_or_eq_true (headingAlignFlag p) with h3 | h3 <;>
    rcases Bool.eq_false_or_eq_true (headingFontFlag p) with h4 | h4 <;>
    rcases Bool.eq_false_or_eq_true (imageFlag p) with h5 | h5 <;>
    rcases Bool.eq_false_or_eq_true (bodyFontFlag p) with h2 | h2 <;>
    cases fl <;> cases tocF <;>
    simp [condApp, h1, h2, h3, h4, h5, tocFixPara_alignment,
      alignJustP, alignCenterP, bodyFontFixP, headingFixP, spacingFixP]

theorem pipePara_spaceBefore (tocF fl : Bool) (p : Paragraph) :
    (pipePara tocF fl p).spaceBefore = if fl then some 6 else p.spaceBefore := by
  unfold pipePara
  rcases Bool.eq_false_or_eq_true (bodyAlignFlag p) with h1 | h1 <;>
    rcases Bool.eq_false_or_eq_true (bodyFontFlag p) with h2 | h2 <;>
    rcases Bool.eq_false_or_eq_true (headingAlignFlag p) with h3 | h3 <;>
    rcases Bool.eq_false_or_eq_true (headingFontFlag p) with h4 | h4 <;>
    rcases Bool.eq_false_or_eq_true (imageFlag p) with h5 | h5 <;>
    cases fl <;> cases tocF <;>
    simp [condApp, h1, h2, h3, h4, h5, tocFixPara_spaceBefore,
      alignJustP, alignCenterP, bodyFontFixP, headingFixP, spacingFixP]

theorem pipePara_spaceAfter (tocF fl : Bool) (p : Paragraph) :
    (pipePara tocF fl p).spaceAfter = if fl then some 6 else p.spaceAfter := by
  unfold pipePara
  rcases Bool.eq_false_or_eq_true (bodyAlignFlag p) with h1 | h1 <;>
    rcases Bool.eq_false_or_eq_true (bodyFontFlag p) with h2 | h2 <;>
    rcases Bool.eq_false_or_eq_true (headingAlignFlag p) with h3 | h3 <;>
    rcases Bool.eq_false_or_eq_true (headingFontFlag p) with h4 | h4 <;>
    rcases Bool.eq_false_or_eq_true (imageFlag p) with h5 | h5 <;>
    cases fl <;> cases tocF <;>
    simp [condApp, h1, h2, h3, h4, h5, tocFixPara_spaceAfter,
      alignJustP, alignCenterP, bodyFontFixP, headingFixP, spacingFixP]

theorem pipePara_lineSpacing (tocF fl : Bool) (p : Paragraph) :
    (pipePara tocF fl p).lineSpacing = if fl then some (133/100) else p.lineSpacing := by
  unfold pipePara
  rcases Bool.eq_false_or_eq_true (bodyAlignFlag p) with h1 | h1 <;>
    rcases Bool.eq_false_or_eq_true (bodyFontFlag p) with h2 | h2 <;>
    rcases Bool.eq_false_or_eq_true (headingAlignFlag p) with h3 | h3 <;>
    rcases Bool.eq_false_or_eq_true (headingFontFlag p) with h4 | h4 <;>
    rcases Bool.eq_false_or_eq_true (imageFlag p) with h5 | h5 <;>
    cases fl <;> cases tocF <;>
    simp [condApp, h1, h2, h3, h4, h5, tocFixPara_lineSpacing,
      alignJustP, alignCenterP, bodyFontFixP, headingFixP, spacingFixP]

theorem headingSize_facts {s : String} {sz : Nat} (h : headingSize s = some sz) :
    s ≠ "Normal" ∧ strStarts s "TOC" = false := by
  unfold headingSize at h
  split_ifs at h with h1 h2 h3
  · subst h1; exact ⟨by decide, by decide⟩
  · subst h2; exact ⟨by decide, by decide⟩
  · subst h3; exact ⟨by decide, by decide⟩

theorem tocStyle_facts {s : String} (h : strStarts s "TOC" = true) :
    headingSize s = none ∧ s ≠ "Normal" := by
  constructor
  · cases hh : headingSize s with
    | none => rfl
    | some sz => rw [(headingSize_facts hh).2] at h; cases h
  · intro he; rw [he] at h; cases h

/-- Runs of the pipeline for a Normal-styled paragraph: only the body-font
fix can touch them. -/
theorem pipePara_runs_normal (tocF fl : Bool) (p : Paragraph) (h : p.styleName = "Normal") :
    (pipePara tocF fl p).runs = if bodyFontFlag p then p.runs.map fixBodyRun else p.runs := by
  have hsz : headingSize p.styleName = none := by rw [h]; decide
  have h3 : headingAlignFlag p = false := by simp [headingAlignFlag, hsz]
  have h4 : headingFontFlag p = false := by simp [headingFontFlag, hsz]
  have htoc : strStarts p.styleName "TOC" = false := by rw [h]; decide
  have htoc2 : strStarts "Normal" "TOC" = false := by decide
  unfold pipePara
  rcases Bool.eq_false_or_eq_true (bodyAlignFlag p) with h1 | h1 <;>
    rcases Bool.eq_false_or_eq_true (bodyFontFlag p) with h2 | h2 <;>
    rcases Bool.eq_false_or_eq_true (imageFlag p) with h5 | h5 <;>
    cases fl <;> cases tocF <;>
    simp [condApp, h1, h2, h3, h4, h5, tocFixPara,
      alignJustP, alignCenterP, bodyFontFixP, headingFixP, spacingFixP, htoc, htoc2, h]

/-- Runs of the pipeline for a heading-styled paragraph always end up
passing the heading font check. -/
theorem pipePara_runs_heading (tocF fl : Bool) (p : Paragraph) {sz : Nat}
    (h : headingSize p.styleName = some sz) :
    (pipePara tocF fl p).runs.any (badHeadingRun sz) = false := by
  obtain ⟨hnn, htoc⟩ := headingSize_facts h
  have h2 : bodyFontFlag p = false := by simp [bodyFontFlag, bodyParaGuard, hnn]
  have hfix : ∀ r, badHeadingRun sz (headingRunFix (headingSize p.styleName) r) = false := by
    intro r; rw [h]; simp [badHeadingRun, headingRunFix]
  unfold pipePara
  rcases Bool.eq_false_or_eq_true (bodyAlignFlag p) with h1 | h1 <;>
    rcases Bool.eq_false_or_eq_true (headingAlignFlag p) with h3 | h3 <;>
    rcases hhf : headingFontFlag p with _ | _ <;>
    rcases Bool.eq_false_or_eq_true (imageFlag p) with h5 | h5 <;>
    cases fl <;> cases tocF <;>
    simp_all [condApp, tocFixPara, headingFontFlag, h,
      alignJustP, alignCenterP, bodyFontFixP, headingFixP, spacingFixP, htoc,
      List.any_map, Function.comp, hfix, badHeadingRun]

/-- Runs of the pipeline for a TOC-styled paragraph: only the global
TOC-font pass can touch them. -/
theorem pipePara_runs_toc (tocF fl : Bool) (p : Paragraph) (h : strStarts p.styleName "TOC" = true) :
    (pipePara tocF fl p).runs = if tocF then p.runs.map tocRunFix else p.runs := by
  obtain ⟨hsz, hnn⟩ := tocStyle_facts h
  have h2 : bodyFontFlag p = false := by simp [bodyFontFlag, bodyParaGuard, hnn]
  have h3 : headingAlignFlag p = false := by simp [headingAlignFlag, hsz]
  have h4 : headingFontFlag p = false := by simp [headingFontFlag, hsz]
  unfold pipePara
  rcases Bool.eq_false_or_eq_true (bodyAlignFlag p) with h1 | h1 <;>
    rcases Bool.eq_false_or_eq_true (imageFlag p) with h5 | h5 <;>
    cases fl <;> cases tocF <;>
    simp [condApp, h1, h2, h3, h4, h5, tocFixPara,
      alignJustP, alignCenterP, bodyFontFixP, headingFixP, spacingFixP, h]

/-! ## The fixed runs and paragraphs pass the corresponding checks -/

/-- A font protected by the fix exception list is protected by the check
exception list too. -/
theorem runFontIn_fix_check {r : Run} (h : runFontIn r fixFontExceptions = true) :
    runFontIn r checkBodyFontExceptions = true := by
  unfold runFontIn at *
  cases hf : r.fontName with
  | none => rw [hf] at h; cases h
  | some n =>
    rw [hf] at h
    simp only [fixFontExceptions, checkBodyFontExceptions] at *
    simp only [List.any_cons, List.any_nil, Bool.or_eq_true, decide_eq_true_eq] at h ⊢
    rcases h with h | h | h <;> simp [h]

theorem badBodyRun_fixBodyRun (r : Run) : badBodyRun (fixBodyRun r) = false := by
  unfold fixBodyRun
  split
  · next hprot =>
    have := runFontIn_fix_check hprot
    simp [badBodyRun, this]
  · simp [badBodyRun, runFontIn, checkBodyFontExceptions]

theorem badTocRun_tocRunFix (r : Run) : badTocRun (tocRunFix r) = false := by
  simp [badTocRun, tocRunFix]

theorem badHeadingRun_headingRunFix (sz : Nat) (r : Run) :
    badHeadingRun sz (headingRunFix (some sz) r) = false := by
  simp [badHeadingRun, headingRunFix]

theorem bodyParaGuard_pipePara (tocF fl : Bool) (p : Paragraph) :
    bodyParaGuard (pipePara tocF fl p) = bodyParaGuard p := by
  simp [bodyParaGuard, pipePara_styleName, pipePara_paraText]

theorem any_badBodyRun_map (l : List Run) : (l.map fixBodyRun).any badBodyRun = false := by
  induction l with
  | nil => rfl
  | cons r rest ih => simp [badBodyRun_fixBodyRun, ih]

theorem any_badTocRun_map (l : List Run) : (l.map tocRunFix).any badTocRun = false := by
  induction l with
  | nil => rfl
  | cons r rest ih => simp [badTocRun_tocRunFix, ih]

/-- After the pipeline, the body alignment check never fires. -/
theorem bodyAlignFlag_pipePara (tocF fl : Bool) (p : Paragraph) :
    bodyAlignFlag (pipePara tocF fl p) = false := by
  rcases Bool.eq_false_or_eq_true (bodyParaGuard p) with hg | hg
  · rcases Bool.eq_false_or_eq_true p.hasDrawing with hdr | hdr
    · simp [bodyAlignFlag, pipePara_hasDrawing, hdr]
    · have hst : p.styleName = "Normal" := by
        have h' := hg
        simp only [bodyParaGuard, Bool.and_eq_true, decide_eq_true_eq] at h'
        exact h'.1
      have hsz : headingSize p.styleName = none := by rw [hst]; decide
      have h3 : headingAlignFlag p = false := by simp [headingAlignFlag, hsz]
      have h4 : headingFontFlag p = false := by simp [headingFontFlag, hsz]
      have h5 : imageFlag p = false := by simp [imageFlag, hdr]
      rcases Bool.eq_false_or_eq_true (bodyAlignFlag p) with hba | hba
      · have halq : (pipePara tocF fl p).alignment = some Align.justify := by
          simp [pipePara_alignment, h3, h4, h5, hba]
        simp [bodyAlignFlag, halq]
      · have hal : p.alignment = some Align.justify := by
          rcases Bool.eq_false_or_eq_true (decide (p.alignment = some Align.justify)) with hd | hd
          · exact of_decide_eq_true hd
          · simp [bodyAlignFlag, hg, hdr, hd] at hba
        have halq : (pipePara tocF fl p).alignment = some Align.justify := by
          simp [pipePara_alignment, h3, h4, h5, hba, hal]
        simp [bodyAlignFlag, halq]
  · simp [bodyAlignFlag, bodyParaGuard_pipePara, hg]

/-- After the pipeline, the body font check never fires. -/
theorem bodyFontFlag_pipePara (tocF fl : Bool) (p : Paragraph) :
    bodyFontFlag (pipePara tocF fl p) = false := by
  rcases Bool.eq_false_or_eq_true (bodyParaGuard p) with hg | hg
  · have hst : p.styleName = "Normal" := by
      have h' := hg
      simp only [bodyParaGuard, Bool.and_eq_true, decide_eq_true_eq] at h'
      exact h'.1
    rcases Bool.eq_false_or_eq_true (bodyFontFlag p) with hbf | hbf
    · have hruns : (pipePara tocF fl p).runs = p.runs.map fixBodyRun := by
        rw [pipePara_runs_normal tocF fl p hst, if_pos hbf]
      simp only [bodyFontFlag, hruns, any_badBodyRun_map, Bool.and_false]
    · have hany : p.runs.any badBodyRun = false := by
        simp only [bodyFontFlag, hg, Bool.true_and] at hbf
        exact hbf
      have hruns : (pipePara tocF fl p).runs = p.runs := by
        rw [pipePara_runs_normal tocF fl p hst, if_neg (by simp [hbf])]
      simp [bodyFontFlag, hruns, hany]
  · simp [bodyFontFlag, bodyParaGuard_pipePara, hg]

/-- After the pipeline, the image alignment check never fires (given that
no heading paragraph carries an image). -/
theorem imageFlag_pipePara (tocF fl : Bool) (p : Paragraph)
    (hni : (headingSize p.styleName).isSome = true → p.hasDrawing = false) :
    imageFlag (pipePara tocF fl p) = false := by
  rcases Bool.eq_false_or_eq_true p.hasDrawing with hdr | hdr
  · have hsz : headingSize p.styleName = none := by
      cases hh : headingSize p.styleName with
      | none => rfl
      | some sz =>
        have := hni (by simp [hh])
        simp [this] at hdr
    have h3 : headingAlignFlag p = false := by simp [headingAlignFlag, hsz]
    have h4 : headingFontFlag p = false := by simp [headingFontFlag, hsz]
    have h1 : bodyAlignFlag p = false := by simp [bodyAlignFlag, hdr]
    rcases Bool.eq_false_or_eq_true (imageFlag p) with hfi | hfi
    · have halq : (pipePara tocF fl p).alignment = some Align.center := by
        simp [pipePara_alignment, h3, h4, h1, hfi]
      simp [imageFlag, halq]
    · have hal : p.alignment = some Align.center := by
        rcases Bool.eq_false_or_eq_true (decide (p.alignment = some Align.center)) with hd | hd
        · exact of_decide_eq_true hd
        · simp [imageFlag, hdr, hd] at hfi
      have halq : (pipePara tocF fl p).alignment = some Align.center := by
        simp [pipePara_alignment, h3, h4, h1, hfi, hal]
      simp [imageFlag, halq]
  · simp [imageFlag, pipePara_hasDrawing, hdr]

/-- After the pipeline, heading paragraphs are left-aligned. -/
theorem pipePara_heading_alignment (tocF fl : Bool) (p : Paragraph) {sz : Nat}
    (h : headingSize p.styleName = some sz) (hdr : p.hasDrawing = false) :
    (pipePara tocF fl p).alignment = some Align.left := by
  have h5 : imageFlag p = false := by simp [imageFlag, hdr]
  have h1 : bodyAlignFlag p = false := by
    simp [bodyAlignFlag, bodyParaGuard, (headingSize_facts h).1]
  rcases Bool.eq_false_or_eq_true (headingFontFlag p) with h4 | h4 <;>
    rcases Bool.eq_false_or_eq_true (headingAlignFlag p) with h3 | h3
  · simp [pipePara_alignment, h3, h4, h5, h1]
  · simp [pipePara_alignment, h3, h4, h5, h1]
  · simp [pipePara_alignment, h3, h4, h5, h1]
  · have hal : p.alignment = some Align.left := by
      rcases Bool.eq_false_or_eq_true (decide (p.alignment = some Align.left)) with hd | hd
      · exact of_decide_eq_true hd
      · simp [headingAlignFlag, h, hd] at h3
    simp [pipePara_alignment, h3, h4, h5, h1, hal]

theorem headingAlignFlag_pipePara (tocF fl : Bool) (p : Paragraph)
    (hni : (headingSize p.styleName).isSome = true → p.hasDrawing = false) :
    headingAlignFlag (pipePara tocF fl p) = false := by
  cases hh : headingSize p.styleName with
  | none => simp [headingAlignFlag, pipePara_styleName, hh]
  | some sz =>
    have hal := pipePara_heading_alignment tocF fl p hh (hni (by simp [hh]))
    simp [headingAlignFlag, pipePara_styleName, hh, hal]

theorem headingFontFlag_pipePara (tocF fl : Bool) (p : Paragraph) :
    headingFontFlag (pipePara tocF fl p) = false := by
  cases hh : headingSize p.styleName with
  | none => simp [headingFontFlag, pipePara_styleName, hh]
  | some sz =>
    simp [headingFontFlag, pipePara_styleName, hh, pipePara_runs_heading tocF fl p hh]

theorem mem_normalizeParas {q : Paragraph} {tocF : Bool} :
    ∀ {ps : List Paragraph} {b : Bool}, q ∈ normalizeParas tocF b ps →
    ∃ p ∈ ps, ∃ fl, q = pipePara tocF fl p := by
  intro ps
  induction ps with
  | nil => intro b h; simp [normalizeParas] at h
  | cons p rest ih =>
    intro b h
    simp only [normalizeParas, List.mem_cons] at h
    rcases h with h | h
    · exact ⟨p, by simp, spacingHeadFlag b p, h⟩
    · obtain ⟨p', hp', fl, hq⟩ := ih h
      exact ⟨p', by simp [hp'], fl, hq⟩

theorem checkBodyAux_eq_nil {ps : List Paragraph}
    (h : ∀ p ∈ ps, bodyAlignFlag p = false ∧ bodyFontFlag p = false) :
    ∀ k, checkBodyAux k ps = [] := by
  induction ps with
  | nil => intro k; rfl
  | cons p rest ih =>
    intro k
    have hp := h p (by simp)
    simp [checkBodyAux, hp.1, hp.2, ih (fun p' hp' => h p' (by simp [hp']))]

theorem checkHeadingsAux_eq_nil {ps : List Paragraph}
    (h : ∀ p ∈ ps, headingAlignFlag p = false ∧ headingFontFlag p = false) :
    ∀ k, checkHeadingsAux k ps = [] := by
  induction ps with
  | nil => intro k; rfl
  | cons p rest ih =>
    intro k
    have hp := h p (by simp)
    simp [checkHeadingsAux, hp.1, hp.2, ih (fun p' hp' => h p' (by simp [hp']))]

theorem checkImagesAux_eq_nil {ps : List Paragraph}
    (h : ∀ p ∈ ps, imageFlag p = false) :
    ∀ k, checkImagesAux k ps = [] := by
  induction ps with
  | nil => intro k; rfl
  | cons p rest ih =>
    intro k
    simp [checkImagesAux, h p (by simp), ih (fun p' hp' => h p' (by simp [hp']))]

theorem scopeNext_pipePara (b tocF fl : Bool) (p : Paragraph) :
    scopeNext b (pipePara tocF fl p) = scopeNext b p := by
  simp [scopeNext, pipePara_styleName]

/-- After the pipeline with the spacing flag that the checker computed,
the spacing check never fires again. -/
theorem spacingHeadFlag_pipePara (b tocF : Bool) (p : Paragraph) :
    spacingHeadFlag b (pipePara tocF (spacingHeadFlag b p) p) = false := by
  by_cases hst : p.styleName = "Heading 1"
  · simp [spacingHeadFlag, pipePara_styleName, hst]
  · have hshape : spacingHeadFlag b (pipePara tocF (spacingHeadFlag b p) p) =
        (scopeNext b p && !(strTrim (paraText p)).data.isEmpty &&
          badSpacing (pipePara tocF (spacingHeadFlag b p) p)) := by
      simp [spacingHeadFlag, pipePara_styleName, hst, scopeNext_pipePara, pipePara_paraText]
    rcases Bool.eq_false_or_eq_true (spacingHeadFlag b p) with hflv | hflv
    · have hbs : badSpacing (pipePara tocF (spacingHeadFlag b p) p) = false := by
        rw [badSpacing]
        rw [pipePara_spaceBefore, pipePara_spaceAfter, pipePara_lineSpacing, hflv]
        norm_num [myAbs]
      rw [hshape, hbs]
      simp
    · have hbs : badSpacing (pipePara tocF (spacingHeadFlag b p) p) = badSpacing p := by
        rw [badSpacing, badSpacing]
        rw [pipePara_spaceBefore, pipePara_spaceAfter, pipePara_lineSpacing, hflv]
        simp
      rw [hshape, hbs]
      have hfl_eq : spacingHeadFlag b p =
          (scopeNext b p && !(strTrim (paraText p)).data.isEmpty && badSpacing p) := by
        simp [spacingHeadFlag, hst]
      rw [← hfl_eq]
      exact hflv

theorem checkSpacingAux_normalize (tocF : Bool) :
    ∀ (ps : List Paragraph) (b : Bool) (k : Nat),
    checkSpacingAux b k (normalizeParas tocF b ps) = [] := by
  intro ps
  induction ps with
  | nil => intro b k; rfl
  | cons p rest ih =>
    intro b k
    show checkSpacingAux b k
      (pipePara tocF (spacingHeadFlag b p) p :: normalizeParas tocF (scopeNext b p) rest) = []
    simp only [checkSpacingAux]
    rw [spacingHeadFlag_pipePara, scopeNext_pipePara]
    simp only [Bool.false_eq_true, if_neg (by simp : ¬False), List.nil_append]
    simpa using ih (scopeNext b p) (k+1)

theorem tocPresent_normalize (tocF : Bool) :
    ∀ (ps : List Paragraph) (b : Bool),
    (normalizeParas tocF b ps).any Paragraph.xmlHasTOC = ps.any Paragraph.xmlHasTOC := by
  intro ps
  induction ps with
  | nil => intro b; rfl
  | cons p rest ih =>
    intro b
    simp [normalizeParas, pipePara_xmlHasTOC, ih]

/-- One pipelined paragraph passes the TOC-font run check, given that it
passed before in case the global TOC font pass was not triggered. -/
theorem pipePara_toc_ok (tocF fl : Bool) (p : Paragraph)
    (hp : tocF = false → (strStarts p.styleName "TOC" && p.runs.any badTocRun) = false) :
    (strStarts (pipePara tocF fl p).styleName "TOC" &&
      (pipePara tocF fl p).runs.any badTocRun) = false := by
  cases hts : strStarts p.styleName "TOC"
  · simp [pipePara_styleName, hts]
  · cases htf : tocF
    · have hruns : (pipePara false fl p).runs = p.runs := by
        rw [pipePara_runs_toc false fl p hts]; simp
      have hq := hp htf
      rw [hts] at hq
      simp only [Bool.true_and] at hq
      simp only [pipePara_styleName, hts, hruns, hq, Bool.and_false]
    · have hruns : (pipePara true fl p).runs = p.runs.map tocRunFix := by
        rw [pipePara_runs_toc true fl p hts]; simp
      simp only [pipePara_styleName, hts, hruns, any_badTocRun_map, Bool.and_false]

theorem any_docProps_check (d : Document) (stem : String) :
    (check_format d stem).any (fun iss => decide (iss.kind = IssueKind.docProperties)) =
      propsBad d.props stem := by
  simp only [check_format, List.any_append]
  have h1 : (checkBodyAux 0 d.paragraphs).any
      (fun iss => decide (iss.kind = IssueKind.docProperties)) = false := by
    rw [List.any_eq_false]
    intro iss hiss
    obtain ⟨m, _, _, hk⟩ := mem_checkBodyAux hiss
    rcases hk with hk | hk <;> simp [hk]
  have h2 : (checkHeadingsAux 0 d.paragraphs).any
      (fun iss => decide (iss.kind = IssueKind.docProperties)) = false := by
    rw [List.any_eq_false]
    intro iss hiss
    obtain ⟨m, _, _, hk⟩ := mem_checkHeadingsAux hiss
    simp [hk]
  have h3 : (checkTables d).any
      (fun iss => decide (iss.kind = IssueKind.docProperties)) = false := by
    rw [List.any_eq_false]
    intro iss hiss
    simp [(mem_checkTables hiss).1]
  have h4 : (checkImagesAux 0 d.paragraphs).any
      (fun iss => decide (iss.kind = IssueKind.docProperties)) = false := by
    rw [List.any_eq_false]
    intro iss hiss
    obtain ⟨m, _, _, hk⟩ := mem_checkImagesAux hiss
    simp [hk]
  have h5 : (checkSpacingAux false 0 d.paragraphs).any
      (fun iss => decide (iss.kind = IssueKind.docProperties)) = false := by
    rw [List.any_eq_false]
    intro iss hiss
    obtain ⟨m, _, _, hk⟩ := mem_checkSpacingAux hiss
    simp [hk]
  have h7 : (checkToc d).any
      (fun iss => decide (iss.kind = IssueKind.docProperties)) = false := by
    unfold checkToc; split <;> simp
  have h8 : (checkTocFont d).any
      (fun iss => decide (iss.kind = IssueKind.docProperties)) = false := by
    unfold checkTocFont
    split
    · split <;> simp
    · simp
  rw [h1, h2, h3, h4, h5, h7, h8]
  rcases Bool.eq_false_or_eq_true (propsBad d.props stem) with hpb | hpb <;>
    simp [checkProps, hpb]

theorem propsBad_stemProps (stem : String) : propsBad (stemProps stem) stem = false := by
  simp [propsBad, stemProps]

theorem checkThenFix_props (d : Document) (stem : String) :
    (checkThenFix d stem).props =
      if propsBad d.props stem then stemProps stem else d.props := by
  rw [checkThenFix_eq_foldl, foldl_applyFix_props, any_docProps_check]

/-- The heart of the idempotence claim: after a fix pass on a document
whose TOC marker is present and whose heading paragraphs carry no images,
a re-check reports only the unconditional table-review flag. -/
theorem check_after_fix_only_tables (d : Document) (stem : String)
    (hToc : tocPresent d = true)
    (hImg : ∀ p ∈ d.paragraphs, (headingSize p.styleName).isSome = true → p.hasDrawing = false) :
    (check_format (checkThenFix d stem) stem).all
      (fun iss => decide (iss.kind = IssueKind.fixAllTables)) = true := by
  set d8 := checkThenFix d stem with hd8
  have hpar : d8.paragraphs = normalizeParas (tocFontBad d) false d.paragraphs :=
    checkThenFix_paragraphs d stem hToc
  have hmemflags : ∀ q ∈ d8.paragraphs,
      bodyAlignFlag q = false ∧ bodyFontFlag q = false ∧
      headingAlignFlag q = false ∧ headingFontFlag q = false ∧ imageFlag q = false := by
    intro q hq
    rw [hpar] at hq
    obtain ⟨p, hp, fl, rfl⟩ := mem_normalizeParas hq
    exact ⟨bodyAlignFlag_pipePara _ _ _, bodyFontFlag_pipePara _ _ _,
      headingAlignFlag_pipePara _ _ _ (hImg p hp), headingFontFlag_pipePara _ _ _,
      imageFlag_pipePara _ _ _ (hImg p hp)⟩
  have hb : checkBodyAux 0 d8.paragraphs = [] :=
    checkBodyAux_eq_nil (fun p hp => ⟨(hmemflags p hp).1, (hmemflags p hp).2.1⟩) 0
  have hh : checkHeadingsAux 0 d8.paragraphs = [] :=
    checkHeadingsAux_eq_nil (fun p hp => ⟨(hmemflags p hp).2.2.1, (hmemflags p hp).2.2.2.1⟩) 0
  have hi : checkImagesAux 0 d8.paragraphs = [] :=
    checkImagesAux_eq_nil (fun p hp => (hmemflags p hp).2.2.2.2) 0
  have hsp : checkSpacingAux false 0 d8.paragraphs = [] := by
    rw [hpar]; exact checkSpacingAux_normalize _ _ false 0
  have hpr : checkProps d8 stem = [] := by
    have : d8.props = if propsBad d.props stem then stemProps stem else d.props :=
      checkThenFix_props d stem
    rcases Bool.eq_false_or_eq_true (propsBad d.props stem) with hpb | hpb
    · have hdp : d8.props = stemProps stem := by rw [this, if_pos hpb]
      simp [checkProps, hdp, propsBad_stemProps]
    · have hdp : d8.props = d.props := by rw [this, if_neg (by simp [hpb])]
      simp [checkProps, hdp, hpb]
  have htp : tocPresent d8 = true := by
    unfold tocPresent
    rw [hpar, tocPresent_normalize]
    exact hToc
  have htc : checkToc d8 = [] := by simp [checkToc, htp]
  have htfb : tocFontBad d8 = false := by
    unfold tocFontBad
    rw [List.any_eq_false]
    intro q hq
    simp only [Bool.not_eq_true]
    rw [hpar] at hq
    obtain ⟨p, hp, fl, rfl⟩ := mem_normalizeParas hq
    refine pipePara_toc_ok _ _ _ (fun htf => ?_)
    have := (List.any_eq_false).mp htf p hp
    simpa using this
  have htf : checkTocFont d8 = [] := by simp [checkTocFont, htp, htfb]
  have htab : (checkTables d8).all
      (fun iss => decide (iss.kind = IssueKind.fixAllTables)) = true := by
    unfold checkTables; split <;> simp
  simp [check_format, List.all_append, hb, hh, hi, hsp, hpr, htc, htf, htab]

/-- Characterisation of the fix pass when the TOC is missing: the
per-paragraph pipeline runs without the TOC-font stage, and the two TOC
paragraphs are inserted at the front afterwards. -/
theorem checkThenFix_paragraphs_tocMissing (d : Document) (stem : String)
    (hToc : tocPresent d = false) :
    (checkThenFix d stem).paragraphs =
      tocFieldPara :: tocTitlePara :: normalizeParas false false d.paragraphs := by
  rw [checkThenFix_eq_foldl, check_format_split, List.foldl_append, List.foldl_append]
  have htoc : checkToc d = [⟨IssueKind.tocMissing, none⟩] := by simp [checkToc, hToc]
  have htf : checkTocFont d = [] := by simp [checkTocFont, hToc]
  rw [htoc, htf]
  simp only [List.foldl_cons, List.foldl_nil]
  show (applyFix stem ((checkNoToc d stem).foldl (applyFix stem) d) ⟨IssueKind.tocMissing, none⟩).paragraphs = _
  simp only [applyFix, addTocToDocument]
  rw [foldl_checkNoToc_paragraphs]

theorem badHeadingRun_eq_false {sz : Nat} {r : Run} (h : badHeadingRun sz r = false) :
    r.fontName = some "Cambria" ∧ r.fontSize = some sz := by
  simp only [badHeadingRun, Bool.or_eq_false_iff, Bool.not_eq_eq_eq_not, Bool.not_false,
    decide_eq_true_eq] at h
  exact h

theorem paraText_nil_runs {p : Paragraph} (h : p.runs = []) :
    (strTrim (paraText p)).data.isEmpty = true := by
  simp [paraText, h, strTrim, String.join]

theorem badBodyRun_of_name {r : Run} {n : String} (h : r.fontName = some n)
    (h1 : n ≠ "Segoe UI") (h2 : n ≠ "Wingdings") (h3 : n ≠ "Wingdings 2")
    (h4 : n ≠ "Calibri") : badBodyRun r = true := by
  simp [badBodyRun, runFontIn, h, checkBodyFontExceptions, h4,
    Ne.symm h1, Ne.symm h2, Ne.symm h3]

theorem fixBodyRun_of_unprotected {r : Run} {n : String} (h : r.fontName = some n)
    (h2 : n ≠ "Wingdings") (h3 : n ≠ "Wingdings 2") :
    fixBodyRun r = { r with fontName := some "Segoe UI", fontSize := some 10 } := by
  unfold fixBodyRun
  rw [if_neg]
  simp [runFontIn, h, fixFontExceptions, Ne.symm h2, Ne.symm h3]

/-- End-to-end scenario 1, in the general form: a Heading 1 paragraph
followed by a Normal body paragraph in Times New Roman with unset
space-before and no TOC ends up fully styled. -/
theorem scenario1_core (d : Document) (stem : String) (p0 p1 : Paragraph)
    (hd : d.paragraphs = [p0, p1])
    (h0s : p0.styleName = "Heading 1") (h0i : p0.hasDrawing = false)
    (h1s : p1.styleName = "Normal") (h1i : p1.hasDrawing = false)
    (h1t : (strTrim (paraText p1)).data.isEmpty = false)
    (h1f : ∀ r ∈ p1.runs, r.fontName = some "Times New Roman")
    (h1b : p1.spaceBefore = none)
    (hToc : tocPresent d = false) :
    (checkThenFix d stem).paragraphs[2]?.map Paragraph.alignment = some (some Align.left) ∧
    (checkThenFix d stem).paragraphs[2]?.map (fun p => p.runs.all
      (fun r => decide (r.fontName = some "Cambria") && decide (r.fontSize = some 28))) = some true ∧
    (checkThenFix d stem).paragraphs[3]?.map
      (fun p => (p.alignment, p.spaceBefore, p.spaceAfter, p.lineSpacing)) =
      some (some Align.justify, some 6, some 6, some ((133 : ℚ)/100)) ∧
    (checkThenFix d stem).paragraphs[3]?.map (fun p => p.runs.all
      (fun r => decide (r.fontName = some "Segoe UI") && decide (r.fontSize = some 10))) = some true := by
  have hpar := checkThenFix_paragraphs_tocMissing d stem hToc
  rw [hd] at hpar
  have hsz0 : headingSize p0.styleName = some 28 := by rw [h0s]; decide
  have hfl1 : spacingHeadFlag (scopeNext false p0) p1 = true := by
    have hs0 : scopeNext false p0 = true := by simp [scopeNext, h0s]
    have hs1 : scopeNext true p1 = true := by
      rw [scopeNext, if_neg (by rw [h1s]; decide), if_neg (by rw [h1s]; decide)]
    have hbs : badSpacing p1 = true := by
      simp [badSpacing, h1b]
    rw [spacingHeadFlag, if_neg (by rw [h1s]; decide), hs0, hs1, hbs, h1t]
    rfl
  have hnorm : normalizeParas false false [p0, p1] =
      [pipePara false (spacingHeadFlag false p0) p0,
       pipePara false (spacingHeadFlag (scopeNext false p0) p1) p1] := rfl
  rw [hnorm, hfl1] at hpar
  rw [hpar]
  refine ⟨?_, ?_, ?_, ?_⟩
  · simp only [List.getElem?_cons_succ, List.getElem?_cons_zero, Option.map_some']
    rw [pipePara_heading_alignment false _ p0 hsz0 h0i]
  · simp only [List.getElem?_cons_succ, List.getElem?_cons_zero, Option.map_some']
    have hany := pipePara_runs_heading false (spacingHeadFlag false p0) p0 hsz0
    rw [List.any_eq_false] at hany
    rw [Option.some_inj, List.all_eq_true]
    intro r hr
    obtain ⟨hn, hs⟩ := badHeadingRun_eq_false (by simpa using hany r hr)
    simp [hn, hs]
  · simp only [List.getElem?_cons_succ, List.getElem?_cons_zero, Option.map_some']
    have hsz1 : headingSize p1.styleName = none := by rw [h1s]; decide
    have h3 : headingAlignFlag p1 = false := by simp [headingAlignFlag, hsz1]
    have h4 : headingFontFlag p1 = false := by simp [headingFontFlag, hsz1]
    have h5 : imageFlag p1 = false := by simp [imageFlag, h1i]
    have hguard : bodyParaGuard p1 = true := by
      simp [bodyParaGuard, h1s, h1t]
    have halq : (pipePara false true p1).alignment = some Align.justify := by
      rcases Bool.eq_false_or_eq_true (bodyAlignFlag p1) with hba | hba
      · simp [pipePara_alignment, h3, h4, h5, hba]
      · have hal : p1.alignment = some Align.justify := by
          rcases Bool.eq_false_or_eq_true (decide (p1.alignment = some Align.justify)) with hdd | hdd
          · exact of_decide_eq_true hdd
          · simp [bodyAlignFlag, hguard, h1i, hdd] at hba
        simp [pipePara_alignment, h3, h4, h5, hba, hal]
    rw [Option.some_inj, halq, pipePara_spaceBefore, pipePara_spaceAfter, pipePara_lineSpacing]
    rfl
  · simp only [List.getElem?_cons_succ, List.getElem?_cons_zero, Option.map_some']
    have hne : p1.runs ≠ [] := by
      intro he
      rw [paraText_nil_runs he] at h1t
      cases h1t
    have hbf : bodyFontFlag p1 = true := by
      have hguard : bodyParaGuard p1 = true := by simp [bodyParaGuard, h1s, h1t]
      have hany : p1.runs.any badBodyRun = true := by
        cases hrs : p1.runs with
        | nil => exact absurd hrs hne
        | cons r rs =>
          have hr : r.fontName = some "Times New Roman" := h1f r (by rw [hrs]; simp)
          simp [badBodyRun_of_name hr (by decide) (by decide) (by decide) (by decide)]
      simp [bodyFontFlag, hguard, hany]
    have hruns : (pipePara false true p1).runs = p1.runs.map fixBodyRun := by
      rw [pipePara_runs_normal false true p1 h1s, if_pos hbf]
    rw [Option.some_inj, hruns, List.all_eq_true]
    intro r hr
    obtain ⟨r0, hr0, rfl⟩ := List.mem_map.mp hr
    rw [fixBodyRun_of_unprotected (h1f r0 hr0) (by decide) (by decide)]
    simp

/-! ## Claim-chart table formatting -/

/-- Boolean universal over a list with the running index. -/
def allIdx (f : Nat → α → Bool) : Nat → List α → Bool
  | _, [] => true
  | k, a :: as => f k a && allIdx f (k+1) as

/-- The config returned by the Claim Chart rule. -/
def claimChartConfig : TableConfig := ⟨"Claim Chart", Align.center, Align.justify, false⟩

/-- Modelled from the amended claim text, for comparison with the code:
one cell paragraph of a formatted claim-chart table is CENTER when it sits
in the header row, in column 0, or its own trimmed text is one of the
fixed symbols, and JUSTIFY otherwise. -/
def specCCpara (ri ci : Nat) (p : Paragraph) : Bool :=
  decide (p.alignment = some (
    if ri = 0 then Align.center
    else if ci = 0 ∨ strTrim (paraText p) ∈ symbolsList then Align.center
    else Align.justify))

/-- Modelled from the amended claim text: the whole formatted table obeys
the per-paragraph claim-chart alignment rule. -/
def specClaimChartShape (t' : Table) : Bool :=
  allIdx (fun ri row => allIdx (fun ci c => c.paragraphs.all (specCCpara ri ci)) 0 row.cells)
    0 t'.rows

theorem paraText_formatCellPara (config : TableConfig) (ri ci : Nat) (p : Paragraph) :
    paraText (formatCellPara config ri ci p) = paraText p := by
  have hfix : ∀ r, (formatCellRun r).text = r.text := by
    intro r; unfold formatCellRun; split <;> rfl
  simp only [formatCellPara, paraText, List.map_map]
  rw [mapText_eq formatCellRun hfix]

theorem specCCpara_formatted (ri ci : Nat) (p : Paragraph) :
    specCCpara ri ci (formatCellPara claimChartConfig ri ci p) = true := by
  unfold specCCpara
  rw [decide_eq_true_eq, paraText_formatCellPara]
  show some (cellParaAlign claimChartConfig ri ci p) = _
  congr 1

theorem claimChart_cells (ri : Nat) : ∀ (cells : List Cell) (ci : Nat),
    allIdx (fun ci c => c.paragraphs.all (specCCpara ri ci)) ci
      (formatCells claimChartConfig ri ci cells) = true := by
  intro cells
  induction cells with
  | nil => intro ci; rfl
  | cons c cs ih =>
    intro ci
    simp only [formatCells, allIdx, Bool.and_eq_true]
    refine ⟨?_, ih (ci+1)⟩
    rw [List.all_eq_true]
    intro p hp
    obtain ⟨p0, hp0, rfl⟩ := List.mem_map.mp hp
    exact specCCpara_formatted ri ci p0

theorem claimChart_rows : ∀ (rows : List Row) (ri : Nat),
    allIdx (fun ri row => allIdx (fun ci c => c.paragraphs.all (specCCpara ri ci)) 0 row.cells)
      ri (formatRows claimChartConfig ri rows) = true := by
  intro rows
  induction rows with
  | nil => intro ri; rfl
  | cons r rs ih =>
    intro ri
    simp only [formatRows, allIdx, Bool.and_eq_true]
    exact ⟨claimChart_cells ri r.cells 0, ih (ri+1)⟩

theorem claimChart_format (t : Table) (pre : String)
    (h1 : refRuleMatch (headerCells t) = false)
    (h2 : legendRuleMatch (headerCells t) = false)
    (h3 : claimRuleMatch (headerCells t) = true) :
    get_table_config t pre = claimChartConfig ∧
    specClaimChartShape (format_table t pre) = true := by
  have hcfg : get_table_config t pre = claimChartConfig := by
    unfold get_table_config confOfHeaders claimChartConfig
    rw [if_neg (by simp [h1]), if_neg (by simp [h2]), if_pos (by simp [h3])]
  refine ⟨hcfg, ?_⟩
  unfold format_table specClaimChartShape
  rw [hcfg]
  exact claimChart_rows t.rows 0

/-! ## Document properties helpers -/

theorem docProps_mem_check (d : Document) (stem : String) (h : propsBad d.props stem = true) :
    (⟨IssueKind.docProperties, none⟩ : Issue) ∈ check_format d stem := by
  simp [check_format, checkProps, h]

/-! ## Concrete example documents and tables used by the claim theorems -/

/-- A body-text cell paragraph with the given text. -/
def mkCellPara (s : String) : Paragraph :=
  ⟨"Normal", [⟨none, none, s⟩], none, none, none, none, false, false⟩

/-- A single-paragraph cell with the given text. -/
def mkCell (s : String) : Cell := ⟨[mkCellPara s]⟩

/-- A fully compliant one-paragraph document without a TOC marker. -/
def c1DocA : Document :=
  ⟨[⟨"Normal", [⟨some "Segoe UI", some 10, "Hello"⟩], some Align.justify,
     none, none, none, false, false⟩], [], stemProps "r"⟩

/-- A document whose single Heading 1 paragraph contains an image. -/
def c1DocB : Document :=
  ⟨[⟨"Heading 1", [⟨some "Cambria", some 28, "x"⟩], some Align.center,
     none, none, none, true, true⟩], [], stemProps "r"⟩

/-- A compliant one-paragraph document with a TOC marker. -/
def c1WDoc : Document :=
  ⟨[⟨"Normal", [⟨some "Segoe UI", some 10, "Hello"⟩], some Align.justify,
     none, none, none, false, true⟩], [], stemProps "r"⟩

/-- A Normal paragraph whose run uses the Symbol font. -/
def c2DocSymbol : Document :=
  ⟨[⟨"Normal", [⟨some "Symbol", some 12, "a"⟩], some Align.justify,
     none, none, none, false, true⟩], [], stemProps "r"⟩

/-- A Heading 1 paragraph whose run uses the Wingdings font. -/
def c2DocWing : Document :=
  ⟨[⟨"Heading 1", [⟨some "Wingdings", some 28, "b"⟩], some Align.left,
     none, none, none, false, true⟩], [], stemProps "r"⟩

/-- A Wingdings run. -/
def c2Run : Run := ⟨some "Wingdings", some 33, "g"⟩

/-- A one-row table with header cell text A. -/
def c3T1 : Table := ⟨[⟨[mkCell "A"]⟩]⟩

/-- A two-row table with the same header cell text A. -/
def c3T2 : Table := ⟨[⟨[mkCell "A"]⟩, ⟨[mkCell "B"]⟩]⟩

/-- A table whose header contains both the claim-element keyword and a
reference-list keyword. -/
def c4BadTable : Table := ⟨[⟨[mkCell "Claim Element", mkCell "Publication Number"]⟩]⟩

/-- A claim chart with one body cell holding two paragraphs. -/
def c4MultiTable : Table :=
  ⟨[⟨[mkCell "Claim Element", mkCell "Support"]⟩,
    ⟨[mkCell "1", ⟨[mkCellPara "✓", mkCellPara "x"]⟩]⟩]⟩

/-- The scenario-3 claim chart. -/
def c4GoodTable : Table :=
  ⟨[⟨[mkCell "Claim Element", mkCell "Support"]⟩,
    ⟨[mkCell "1", mkCell "✓"]⟩,
    ⟨[mkCell "2", mkCell "Discussion text"]⟩]⟩

/-- The scenario-1 heading: Arial 12pt, centered. -/
def c5P0 : Paragraph :=
  ⟨"Heading 1", [⟨some "Arial", some 12, "Intro"⟩], some Align.center,
   none, none, none, false, false⟩

/-- The scenario-1 body paragraph: Times New Roman, left-aligned. -/
def c5P1 : Paragraph :=
  ⟨"Normal", [⟨some "Times New Roman", none, "Body text"⟩], some Align.left,
   none, none, none, false, false⟩

/-- The scenario-1 document. -/
def c5Doc : Document := ⟨[c5P0, c5P1], [], stemProps "r"⟩

/-- A Heading 1 followed by a body paragraph whose run uses Wingdings. -/
def c5DocX : Document :=
  ⟨[⟨"Heading 1", [⟨some "Cambria", some 28, "Intro"⟩], some Align.left,
     none, none, none, false, true⟩,
    ⟨"Normal", [⟨some "Wingdings", none, "q"⟩], some Align.left,
     none, none, none, false, false⟩], [], stemProps "r"⟩

/-- A document whose title differs from the filename stem r. -/
def c7Doc : Document := ⟨[], [], ⟨"x", "r", "r", "r", "r"⟩⟩

/-- An orchestrator state holding a previously recorded issue. -/
def c9State : AppState := ⟨none, [⟨IssueKind.docProperties, none⟩]⟩

/-! ## Claim theorems -/

/-- C1, counterexample: the claim fails as stated.  On a compliant
document lacking a TOC, the fix inserts an unformatted paragraph that the
next check flags; on a document whose Heading 1 contains an image, the
heading and image alignment rules oscillate, so the next check flags the
image again.  In both cases the re-check reports issues other than the
table-review flag. -/
theorem claim_c1_counterexample :
    (check_format (checkThenFix c1DocA "r") "r").all
      (fun iss => decide (iss.kind = IssueKind.fixAllTables)) = false ∧
    (check_format (checkThenFix c1DocB "r") "r").all
      (fun iss => decide (iss.kind = IssueKind.fixAllTables)) = false := by
  decide

/-- C1, amended: for every document whose TOC marker is present and in
which no heading-styled paragraph contains an image, running the check
immediately after a fix reports zero issues for every kind except the
unconditional table-review flag. -/
theorem claim_c1_idempotence (d : Document) (stem : String)
    (hToc : tocPresent d = true)
    (hImg : d.paragraphs.all (fun p => !(headingSize p.styleName).isSome || !p.hasDrawing) = true) :
    (check_format (checkThenFix d stem) stem).all
      (fun iss => decide (iss.kind = IssueKind.fixAllTables)) = true := by
  refine check_after_fix_only_tables d stem hToc ?_
  intro p hp hsome
  have h' := List.all_eq_true.mp hImg p hp
  simpa [hsome] using h'

/-- C1, witness: the amended idempotence theorem applied to a concrete
document with a TOC marker and no heading images. -/
theorem claim_c1_idempotence_witness :
    tocPresent c1WDoc = true ∧
    c1WDoc.paragraphs.all (fun p => !(headingSize p.styleName).isSome || !p.hasDrawing) = true ∧
    (check_format (checkThenFix c1WDoc "r") "r").all
      (fun iss => decide (iss.kind = IssueKind.fixAllTables)) = true :=
  ⟨by decide, by decide, claim_c1_idempotence c1WDoc "r" (by decide) (by decide)⟩

/-- C2, counterexample: the claim fails as stated.  A Normal-paragraph run
in the Symbol font is flagged by the body-font check and rewritten to
Segoe UI by the fix (Symbol is not in the code's exception lists), and a
Wingdings run inside a Heading 1 is flagged and rewritten to Cambria by
the heading rule, which ignores the exception list. -/
theorem claim_c2_counterexample :
    (check_format c2DocSymbol "r").any
      (fun iss => decide (iss.kind = IssueKind.bodyFont)) = true ∧
    (checkThenFix c2DocSymbol "r").paragraphs.map (fun p => p.runs.map Run.fontName) =
      [[some "Segoe UI"]] ∧
    (check_format c2DocWing "r").any
      (fun iss => decide (iss.kind = IssueKind.headingFormat)) = true ∧
    (checkThenFix c2DocWing "r").paragraphs.map (fun p => p.runs.map Run.fontName) =
      [[some "Cambria"]] := by
  decide

/-- C2, amended: the protected exception set of the body-text and table
font rules is Wingdings and Wingdings 2 (not Symbol): a run whose font is
in that set never triggers the body-font check and is left unchanged by
the body-font fix and by the table formatter's font rewrite.  The heading
and TOC font rules rewrite every run regardless of font. -/
theorem claim_c2_protected_fonts (r : Run)
    (h : r.fontName = some "Wingdings" ∨ r.fontName = some "Wingdings 2") :
    badBodyRun r = false ∧ fixBodyRun r = r ∧ formatCellRun r = r := by
  have hin : runFontIn r fixFontExceptions = true := by
    rcases h with h | h <;> simp [runFontIn, h, fixFontExceptions]
  have hin2 : runFontIn r checkBodyFontExceptions = true := runFontIn_fix_check hin
  refine ⟨by simp [badBodyRun, hin2], ?_, ?_⟩
  · unfold fixBodyRun; rw [if_pos hin]
  · unfold formatCellRun; rw [if_pos hin]

/-- C2, witness: the protected-font theorem applied to a concrete
Wingdings run. -/
theorem claim_c2_protected_fonts_witness :
    (c2Run.fontName = some "Wingdings" ∨ c2Run.fontName = some "Wingdings 2") ∧
    (badBodyRun c2Run = false ∧ fixBodyRun c2Run = c2Run ∧ formatCellRun c2Run = c2Run) :=
  ⟨Or.inl rfl, claim_c2_protected_fonts c2Run (Or.inl rfl)⟩

/-- C3, confirmed: table classification is deterministic.  Two tables with
equal header-row cell texts receive identical TableConfigs for equal
preceding-paragraph texts (which the classifier does not even read). -/
theorem claim_c3_classification_deterministic (t1 t2 : Table) (pre1 pre2 : String)
    (h : headerCellsRaw t1 = headerCellsRaw t2) (hp : pre1 = pre2) :
    get_table_config t1 pre1 = get_table_config t2 pre2 := by
  subst hp
  unfold get_table_config
  unfold headerCells
  rw [h]

/-- C3, witness: two structurally different tables with the same header
texts receive the same config. -/
theorem claim_c3_classification_deterministic_witness :
    headerCellsRaw c3T1 = headerCellsRaw c3T2 ∧
    get_table_config c3T1 "a" = get_table_config c3T2 "a" :=
  ⟨by decide, claim_c3_classification_deterministic c3T1 c3T2 "a" "a" (by decide) rfl⟩

/-- C4, counterexample: the claim fails as stated.  A header containing
both the claim-element keyword and a reference-list keyword is classified
Reference List (rule priority), not Claim Chart; and in a claim chart, a
body cell holding the two paragraphs with trimmed texts the check-mark
symbol and x has cell text that is not a symbol and sits outside column 0,
so the claim demands JUSTIFY for the cell, yet the formatter centers its
first paragraph (the decision is per paragraph). -/
theorem claim_c4_counterexample :
    claimRuleMatch (headerCells c4BadTable) = true ∧
    get_table_config c4BadTable "" = ⟨"Reference List", Align.center, Align.center, false⟩ ∧
    get_table_config c4MultiTable "" = claimChartConfig ∧
    ((format_table c4MultiTable "").rows[1]?.bind (fun r => r.cells[1]?)).map
      (fun c => c.paragraphs.map Paragraph.alignment) =
      some [some Align.center, some Align.justify] ∧
    (c4MultiTable.rows[1]?.bind (fun r => r.cells[1]?)).map
      (fun c => decide (strTrim (cellText c) ∈ symbolsList)) = some false := by
  decide

/-- C4, amended: for every table whose lowercased header text contains the
claim-element keyword and which matches neither the reference-list nor the
legend rule, the classifier returns the Claim Chart config, and the table
formatter sets every header-row cell paragraph to CENTER and every body
cell paragraph to CENTER when the cell is in column 0 or that paragraph's
own trimmed text is one of the fixed symbols, and to JUSTIFY otherwise. -/
theorem claim_c4_claim_chart (t : Table) (pre : String)
    (h1 : refRuleMatch (headerCells t) = false)
    (h2 : legendRuleMatch (headerCells t) = false)
    (h3 : claimRuleMatch (headerCells t) = true) :
    get_table_config t pre = claimChartConfig ∧
    specClaimChartShape (format_table t pre) = true :=
  claimChart_format t pre h1 h2 h3

/-- C4, witness: the scenario-3 claim chart satisfies the amended claim. -/
theorem claim_c4_claim_chart_witness :
    refRuleMatch (headerCells c4GoodTable) = false ∧
    legendRuleMatch (headerCells c4GoodTable) = false ∧
    claimRuleMatch (headerCells c4GoodTable) = true ∧
    (get_table_config c4GoodTable "" = claimChartConfig ∧
      specClaimChartShape (format_table c4GoodTable "") = true) :=
  ⟨by decide, by decide, by decide,
    claim_c4_claim_chart c4GoodTable "" (by decide) (by decide) (by decide)⟩

/-- C5, counterexample: the claim fails as stated.  In a document with one
Heading 1 followed by one body paragraph whose run uses Wingdings, the
body-font check's exception list protects the run, so after Fix the body
run is still Wingdings, not Segoe UI at 10pt. -/
theorem claim_c5_counterexample :
    c5DocX.paragraphs.map Paragraph.styleName = ["Heading 1", "Normal"] ∧
    (checkThenFix c5DocX "r").paragraphs.map (fun p => p.runs.map Run.fontName) =
      [[some "Cambria"], [some "Wingdings"]] := by
  decide

/-- C5, amended: for a document with one Heading 1 paragraph (no image)
followed by one non-empty Normal body paragraph in Times New Roman with
unset space-before (scenario 1) and no TOC marker, after Fix (which also
inserts the two TOC paragraphs at the front) the heading is left-aligned
with every run in Cambria at 28pt, and the body paragraph is justified
with every run in Segoe UI at 10pt, space-before and space-after 6pt and
line spacing 1.33. -/
theorem claim_c5_end_to_end (d : Document) (stem : String) (p0 p1 : Paragraph)
    (hd : d.paragraphs = [p0, p1])
    (h0s : p0.styleName = "Heading 1") (h0i : p0.hasDrawing = false)
    (h1s : p1.styleName = "Normal") (h1i : p1.hasDrawing = false)
    (h1t : (strTrim (paraText p1)).data.isEmpty = false)
    (h1f : p1.runs.all (fun r => decide (r.fontName = some "Times New Roman")) = true)
    (h1b : p1.spaceBefore = none)
    (hToc : tocPresent d = false) :
    (checkThenFix d stem).paragraphs[2]?.map Paragraph.alignment = some (some Align.left) ∧
    (checkThenFix d stem).paragraphs[2]?.map (fun p => p.runs.all
      (fun r => decide (r.fontName = some "Cambria") && decide (r.fontSize = some 28))) = some true ∧
    (checkThenFix d stem).paragraphs[3]?.map
      (fun p => (p.alignment, p.spaceBefore, p.spaceAfter, p.lineSpacing)) =
      some (some Align.justify, some 6, some 6, some ((133 : ℚ)/100)) ∧
    (checkThenFix d stem).paragraphs[3]?.map (fun p => p.runs.all
      (fun r => decide (r.fontName = some "Segoe UI") && decide (r.fontSize = some 10))) = some true := by
  refine scenario1_core d stem p0 p1 hd h0s h0i h1s h1i h1t ?_ h1b hToc
  intro r hr
  exact of_decide_eq_true (List.all_eq_true.mp h1f r hr)

/-- C5, witness: the end-to-end theorem applied to the concrete
scenario-1 document. -/
theorem claim_c5_end_to_end_witness :
    c5Doc.paragraphs = [c5P0, c5P1] ∧
    c5P0.styleName = "Heading 1" ∧ c5P0.hasDrawing = false ∧
    c5P1.styleName = "Normal" ∧ c5P1.hasDrawing = false ∧
    (strTrim (paraText c5P1)).data.isEmpty = false ∧
    c5P1.runs.all (fun r => decide (r.fontName = some "Times New Roman")) = true ∧
    c5P1.spaceBefore = none ∧ tocPresent c5Doc = false ∧
    ((checkThenFix c5Doc "r").paragraphs[2]?.map Paragraph.alignment = some (some Align.left) ∧
    (checkThenFix c5Doc "r").paragraphs[2]?.map (fun p => p.runs.all
      (fun r => decide (r.fontName = some "Cambria") && decide (r.fontSize = some 28))) = some true ∧
    (checkThenFix c5Doc "r").paragraphs[3]?.map
      (fun p => (p.alignment, p.spaceBefore, p.spaceAfter, p.lineSpacing)) =
      some (some Align.justify, some 6, some 6, some ((133 : ℚ)/100)) ∧
    (checkThenFix c5Doc "r").paragraphs[3]?.map (fun p => p.runs.all
      (fun r => decide (r.fontName = some "Segoe UI") && decide (r.fontSize = some 10))) = some true) :=
  ⟨rfl, rfl, rfl, rfl, rfl, by decide, by decide, rfl, by decide,
    claim_c5_end_to_end c5Doc "r" c5P0 c5P1 rfl rfl rfl rfl rfl (by decide) (by decide) rfl
      (by decide)⟩

/-- C6, confirmed: a table with zero rows yields an empty header list, no
keyword rule matches, and the classifier returns the Standard Table
default config with header CENTER and body JUSTIFY. -/
theorem claim_c6_empty_table (pre : String) :
    headerCells ⟨[]⟩ = [] ∧
    refRuleMatch (headerCells ⟨[]⟩) = false ∧
    legendRuleMatch (headerCells ⟨[]⟩) = false ∧
    claimRuleMatch (headerCells ⟨[]⟩) = false ∧
    get_table_config ⟨[]⟩ pre = ⟨"Standard Table", Align.center, Align.justify, false⟩ :=
  ⟨rfl, rfl, rfl, rfl, rfl⟩

/-- C7, confirmed: if any of the five document properties differs from the
filename stem (the code's `any` test), the check records a
document-properties issue, and after the fix pass all five properties
equal the stem. -/
theorem claim_c7_doc_properties (d : Document) (stem : String)
    (h : propsBad d.props stem = true) :
    (⟨IssueKind.docProperties, none⟩ : Issue) ∈ check_format d stem ∧
    (checkThenFix d stem).props = stemProps stem := by
  refine ⟨docProps_mem_check d stem h, ?_⟩
  rw [checkThenFix_props, if_pos h]

/-- C7, witness: the properties theorem applied to a document whose title
differs from the stem. -/
theorem claim_c7_doc_properties_witness :
    propsBad c7Doc.props "r" = true ∧
    ((⟨IssueKind.docProperties, none⟩ : Issue) ∈ check_format c7Doc "r" ∧
      (checkThenFix c7Doc "r").props = stemProps "r") :=
  ⟨by decide, claim_c7_doc_properties c7Doc "r" (by decide)⟩

/-- C8, confirmed: the check scan is read-only.  Threading the document
through every check method in source order returns it unchanged, together
with exactly the issue list of `check_format`. -/
theorem claim_c8_check_read_only (d : Document) (stem : String) :
    (check_format_st d stem).1 = d ∧ (check_format_st d stem).2 = check_format d stem := by
  constructor
  · rfl
  · simp [check_format_st, checkStepSt, check_format, List.append_assoc]

/-- C9, counterexample: the claim fails as stated.  `self.issues = []`
runs before the `try` block, so on a load failure the previously recorded
issue list is cleared rather than left unchanged. -/
theorem claim_c9_counterexample :
    (check_format_orch c9State "r" (Except.error "boom")).issues ≠ c9State.issues := by
  decide

/-- C9, amended: any exception while opening the document is caught at the
orchestrator boundary; the loaded document is unchanged, and the issue
list is reset to empty (the only state change) rather than preserved. -/
theorem claim_c9_load_failure (st : AppState) (stem : String) (e : String) :
    (check_format_orch st stem (Except.error e)).doc = st.doc ∧
    (check_format_orch st stem (Except.error e)).issues = [] :=
  ⟨rfl, rfl⟩

/-- C10, confirmed: the classifier's result is independent of its
preceding-paragraph-text argument, which it never reads. -/
theorem claim_c10_preceding_text_irrelevant (t : Table) (pre1 pre2 : String) :
    get_table_config t pre1 = get_table_config t pre2 := rfl

end DocxFmt
